import Mathlib

/-!
Verification of the intent-routing and function-dispatch core of a
WhatsApp automation bot, against its natural-language specification.

The development shallowly embeds the relevant JavaScript modules:

* `src/commands/parameterExtraction.js` — parameter extraction rules,
  `extractParameterByType`, `extractParametersFromMessage`,
  `validateParameters`, `generateErrorMessage`;
* `src/webhooks/webhookHandler.js` — the webhook registry
  (`register`, `findWebhook`, `handleWebhook`);
* `src/commands/commandHandler.js` — `CommandHandler.handleMessage`;
* the chatbot pipeline `handleChatbotMessage` of the revision with the
  intent-classification pass (`src/unnamed/part_005`).

JS objects are modelled as insertion-ordered association lists, JS `null`
as `Option.none` in stored values, truthiness of string values explicitly
(`""` is falsy), and the concrete regular expressions of the source as
dedicated scanners with JS leftmost-match / ordered-alternation semantics.
Model calls and handlers are oracles supplied in an environment record,
and the observable behaviour of the pipeline is a trace of effects.
-/

namespace WABot

/-! ### JS-style basic data -/

/-- A stored JS value: `none` models `null` (or an explicit `undefined`). -/
abbrev JsVal := Option String

/-- A JS plain object with string-or-null values, as an insertion-ordered
association list (JS object keys are unique; lookups take the first hit). -/
abbrev Params := List (String × JsVal)

/-- First-occurrence lookup, like JS property access: `none` = key absent. -/
def assocLookup {α : Type} : List (String × α) → String → Option α
  | [], _ => none
  | (k, v) :: rest, key => if k = key then some v else assocLookup rest key

/-- JS `obj[key] = v` / `Map.set`: update the first occurrence in place
(preserving insertion order), else append at the end. -/
def assocSet {α : Type} : List (String × α) → String → α → List (String × α)
  | [], key, v => [(key, v)]
  | (k, w) :: rest, key, v =>
    if k = key then (k, v) :: rest else (k, w) :: assocSet rest key v

/-- JS truthiness of a looked-up value: absent, `null` and `""` are falsy. -/
def truthyVal : Option JsVal → Bool
  | some (some s) => s != ""
  | _ => false

/-- JS truthiness of an optional string (used for tracked "set" values). -/
def truthyOpt : Option String → Bool
  | some s => s != ""
  | none => false

/-! ### JS-style character and string helpers

The source uses only case folding between ASCII letters in practice, so the
`i` regex flag and `toLowerCase` are modelled with `Char.toLower`. -/

/-- JS regex word character (`\w` / `\b` use ASCII `[A-Za-z0-9_]`). -/
def jsWordChar (c : Char) : Bool := c.isAlphanum || c == '_'

/-- Case-insensitive literal match; returns remaining input on success. -/
def matchLitCI : List Char → List Char → Option (List Char)
  | [], s => some s
  | _ :: _, [] => none
  | p :: ps, c :: cs => if p.toLower == c.toLower then matchLitCI ps cs else none

/-- Case-sensitive literal match; returns remaining input on success. -/
def matchLitCS : List Char → List Char → Option (List Char)
  | [], s => some s
  | _ :: _, [] => none
  | p :: ps, c :: cs => if p == c then matchLitCS ps cs else none

/-- Whether `needle` occurs contiguously in the list (JS `includes`). -/
def listIncludes (needle : List Char) : List Char → Bool
  | [] => needle.isEmpty
  | c :: cs => (matchLitCS needle (c :: cs)).isSome || listIncludes needle cs

/-- JS `haystack.includes(needle)` (case-sensitive). -/
def jsIncludes (haystack needle : String) : Bool :=
  listIncludes needle.data haystack.data

/-- Index of the first occurrence of `needle` (JS `indexOf`; `none` = `-1`). -/
def listIndexOf (needle : List Char) : List Char → Option Nat
  | [] => if needle.isEmpty then some 0 else none
  | c :: cs =>
    if (matchLitCS needle (c :: cs)).isSome then some 0
    else (listIndexOf needle cs).map (· + 1)

/-- JS `haystack.indexOf(needle)` as an `Option Nat`. -/
def jsIndexOf (haystack needle : String) : Option Nat :=
  listIndexOf needle.data haystack.data

/-- JS `toLowerCase` (ASCII folding, see module comment). -/
def jsToLower (s : String) : String := String.mk (s.data.map Char.toLower)

/-- JS `str.substring(i)` (by characters). -/
def jsSubstringFrom (s : String) (i : Nat) : String := String.mk (s.data.drop i)

/-- JS `str.trim()`: strip whitespace from both ends. -/
def jsTrim (s : String) : String :=
  String.mk (((s.data.dropWhile Char.isWhitespace).reverse.dropWhile
    Char.isWhitespace).reverse)

/-- JS `str.startsWith(pre)` (case-sensitive). -/
def jsStartsWith (s pre : String) : Bool := (matchLitCS pre.data s.data).isSome

/-- The single-quote character, by code point. -/
def squote : Char := Char.ofNat 39

/-- The double-quote character, by code point. -/
def dquoteCh : Char := Char.ofNat 34

/-- The opening-brace character, by code point. -/
def lbraceCh : Char := Char.ofNat 123

/-- The closing-brace character, by code point. -/
def rbraceCh : Char := Char.ofNat 125

/-- Whether a character is one of the two JS quote characters `'` `"`. -/
def isQuoteCh (c : Char) : Bool := c == squote || c == dquoteCh

/-- A one-character string holding a single quote. -/
def sqS : String := String.mk [squote]

/-! ### The concrete regular expressions of `parameterExtraction.js`

Only three shapes of regex occur; each gets a scanner with JS semantics:
scan start positions left to right, and at a position try the alternatives
in their declared order (a character class such as `[oó]` is expanded into
adjacent alternatives, which is equivalent for these patterns). -/

/-- Try the alternatives of a `\b(a|b|...)\b` pattern at the current
position; `prevWord` says whether the preceding character was a word
character (all alternatives begin and end with word characters). -/
def tryAltWordAt (alts : List String) (prevWord : Bool) (s : List Char) :
    Option String :=
  if prevWord then none
  else alts.findSome? fun a =>
    match matchLitCI a.data s with
    | some rest =>
      match rest with
      | [] => some (String.mk (s.take a.data.length))
      | c :: _ =>
        if jsWordChar c then none else some (String.mk (s.take a.data.length))
    | none => none

/-- Leftmost match of a `\b(a|b|...)\b/i` pattern; returns the matched text
(group 1), in the original case of the input. -/
def scanAltWord (alts : List String) : Bool → List Char → Option String
  | prevWord, [] => tryAltWordAt alts prevWord []
  | prevWord, c :: cs =>
    match tryAltWordAt alts prevWord (c :: cs) with
    | some m => some m
    | none => scanAltWord alts (jsWordChar c) cs

/-- Try the alternatives of a plain `(a|b|...)` pattern at this position. -/
def tryAltAt (alts : List String) (s : List Char) : Option String :=
  alts.findSome? fun a =>
    (matchLitCI a.data s).map fun _ => String.mk (s.take a.data.length)

/-- Leftmost match of a `(a|b|...)/i` pattern (group 1, original case). -/
def scanAlt (alts : List String) : List Char → Option String
  | [] => tryAltAt alts []
  | c :: cs =>
    match tryAltAt alts (c :: cs) with
    | some m => some m
    | none => scanAlt alts cs

/-- Try a `(w1|...|wn) ["']?([^"']+)["']?` pattern at this position,
with JS backtracking: after the alternative and the literal space, the
optional quote is consumed greedily, and `[^"']+` takes the maximal
nonempty run of non-quote characters (the trailing optional quote then
always succeeds). Returns `(group1, group2)`. -/
def tryPhrasePatAt (alts : List String) (s : List Char) :
    Option (String × String) :=
  alts.findSome? fun a =>
    match matchLitCI a.data s with
    | some rest =>
      match rest with
      | ' ' :: r2 =>
        match r2 with
        | [] => none
        | q :: r3 =>
          if isQuoteCh q then
            let run := r3.takeWhile fun c => !(isQuoteCh c)
            if run.isEmpty then none
            else some (String.mk (s.take a.data.length), String.mk run)
          else
            let run := (q :: r3).takeWhile fun c => !(isQuoteCh c)
            if run.isEmpty then none
            else some (String.mk (s.take a.data.length), String.mk run)
      | _ => none
    | none => none

/-- Leftmost match of the two-group quoted-phrase pattern. -/
def scanPhrasePat (alts : List String) : List Char → Option (String × String)
  | [] => none
  | c :: cs =>
    match tryPhrasePatAt alts (c :: cs) with
    | some m => some m
    | none => scanPhrasePat alts cs

/-- The shapes of regex used by the extraction rules. -/
inductive JsPattern where
  /-- a source regex of shape `\b(a|b|...)\b` with the `i` flag -/
  | altWord (alts : List String)
  /-- a source regex of shape `(a|b|...)` with the `i` flag -/
  | alt (alts : List String)
  /-- the source regex `(w1|...) ["']?([^"']+)["']?` with the `i` flag -/
  | phraseQuoted (alts : List String)
  deriving DecidableEq, Repr

/-- Run a pattern and select a capture group (JS `match[group]`); a group
that does not exist in the pattern is `undefined`, i.e. `none`. -/
def runPatternGroup (p : JsPattern) (group : Nat) (text : String) :
    Option String :=
  match p with
  | .altWord alts => if group = 1 then scanAltWord alts false text.data else none
  | .alt alts => if group = 1 then scanAlt alts text.data else none
  | .phraseQuoted alts =>
    match scanPhrasePat alts text.data with
    | some g => if group = 1 then some g.1 else if group = 2 then some g.2 else none
    | none => none

/-! ### `PARAMETER_TYPES` of `parameterExtraction.js` -/

/-- A parameter type definition (entry of `PARAMETER_TYPES`). -/
structure TypeDef where
  values : List String
  synonyms : List (String × List String)
  extractPattern : Option JsPattern := none
  deriving Repr

/-- `PARAMETER_TYPES.AREA`. -/
def AREA : TypeDef :=
  { values := ["office", "room"],
    synonyms :=
      [("office", ["oficina", "estudio", "despacho", "trabajo"]),
       ("room", ["habitación", "habitacion", "cuarto", "dormitorio",
                 "recámara", "recamara"])],
    extractPattern := some (.altWord
      ["office", "oficina", "estudio", "despacho", "trabajo", "room",
       "habitacion", "habitación", "cuarto", "dormitorio",
       "recamara", "recámara"]) }

/-- `PARAMETER_TYPES.TOGGLE_STATE`. -/
def TOGGLE_STATE : TypeDef :=
  { values := ["on", "off"],
    synonyms :=
      [("on", ["encender", "encendido", "activar", "activado", "prender",
               "activa"]),
       ("off", ["apagar", "apagado", "desactivar", "desactivado",
                "desactiva"])],
    extractPattern := some (.altWord
      ["on", "off", "encend", "prender", "prend", "activ", "apag",
       "desactiv"]) }

/-- `PARAMETER_TYPES.DEVICE_TYPE` (no extraction pattern). -/
def DEVICE_TYPE : TypeDef :=
  { values := ["light", "fan", "ac", "tv", "speaker"],
    synonyms :=
      [("light", ["luz", "luces", "lámpara", "lampara", "iluminación",
                  "iluminacion"]),
       ("fan", ["ventilador", "abanico"]),
       ("ac", ["aire", "aire acondicionado", "a/c", "clima", "climatizador"]),
       ("tv", ["tele", "televisión", "television", "televisor"]),
       ("speaker", ["altavoz", "parlante", "bocina"])] }

/-- `PARAMETER_TYPES.SCENE` (no extraction pattern). -/
def SCENE : TypeDef :=
  { values := ["movie", "reading", "sleep", "morning"],
    synonyms :=
      [("movie", ["película", "pelicula", "cine", "netflix"]),
       ("reading", ["lectura", "leer", "libro"]),
       ("sleep", ["dormir", "noche", "descanso"]),
       ("morning", ["mañana", "despertar", "amanecer"])] }

/-- `PARAMETER_TYPES[t]` as a lookup. -/
def parameterTypes (t : String) : Option TypeDef :=
  if t = "AREA" then some AREA
  else if t = "TOGGLE_STATE" then some TOGGLE_STATE
  else if t = "DEVICE_TYPE" then some DEVICE_TYPE
  else if t = "SCENE" then some SCENE
  else none

/-! ### `parameterExtractionRules` of `parameterExtraction.js` -/

/-- One parameter's extraction/validation rule. -/
structure ParamRule where
  type : Option String := none
  keywords : List (String × List String) := []
  validValues : List String := []
  required : Bool := false
  extractPattern : Option JsPattern := none
  extractGroup : Option Nat := none
  defaultValue : Option String := none
  deriving DecidableEq, Repr

/-- Rules for the `area_control` webhook. -/
def areaControlRules : List (String × ParamRule) :=
  [("area",
    { type := some "AREA",
      keywords :=
        [("office", ["office", "oficina", "despacho"]),
         ("room", ["room", "habitación", "habitacion", "cuarto",
                   "dormitorio"])],
      validValues := ["office", "room"], required := true }),
   ("turn",
    { type := some "TOGGLE_STATE",
      keywords :=
        [("on", ["on", "encend", "prend", "activ", "prender", "encender",
                 "activar"]),
         ("off", ["off", "apag", "desactiv", "apagar", "desactivar"])],
      validValues := ["on", "off"], required := true })]

/-- Rules for `device_control`. The JS object literal declares the key
`device_control` twice; in JS the later literal wins, which is the one
embedded here. -/
def deviceControlRules : List (String × ParamRule) :=
  [("device",
    { type := some "DEVICE_TYPE",
      extractPattern := some (.alt
        ["lámpara", "lampara", "luz", "light", "bombilla", "foco", "tv",
         "televisión", "television", "ventilador", "fan", "aire", "ac",
         "speaker", "altavoz"]),
      required := true }),
   ("action",
    { type := some "TOGGLE_STATE",
      keywords :=
        [("on", ["on", "encend", "prend", "activ"]),
         ("off", ["off", "apag", "desactiv"]),
         ("toggle", ["toggle", "altern", "cambiar"])],
      validValues := ["on", "off", "toggle"], required := true })]

/-- Rules for the `scene` webhook. -/
def sceneRules : List (String × ParamRule) :=
  [("scene",
    { type := some "SCENE",
      keywords :=
        [("movie", ["movie", "película", "pelicula", "cine", "netflix"]),
         ("reading", ["reading", "lectura", "leer", "libro"]),
         ("sleep", ["sleep", "dormir", "noche", "descanso"]),
         ("morning", ["morning", "mañana", "despertar", "amanecer"])],
      validValues := ["movie", "reading", "sleep", "morning"],
      required := true })]

/-- Rules for `send_notification`. -/
def sendNotificationRules : List (String × ParamRule) :=
  [("message",
    { extractPattern := some (.phraseQuoted
        ["mensaje", "message", "send", "enviar", "diciendo", "saying",
         "text", "texto"]),
      extractGroup := some 2, required := true }),
   ("to",
    { keywords := [("admin", ["admin", "administrator", "administrador"])],
      defaultValue := some "admin", required := true })]

/-- Rules for `sensor_report`. -/
def sensorReportRules : List (String × ParamRule) :=
  [("sensor",
    { keywords :=
        [("temperature", ["temperatura", "termometro", "termómetro",
                          "calor", "frío", "frio"]),
         ("humidity", ["humedad", "humidity"]),
         ("motion", ["movimiento", "motion", "presencia", "presence"]),
         ("light", ["light", "luz", "iluminacion", "iluminación",
                    "brillo"])],
      validValues := ["temperature", "humidity", "motion", "light", "all"],
      required := true }),
   ("location",
    { keywords :=
        [("living", ["living", "sala", "salón", "salon"]),
         ("bedroom", ["bedroom", "dormitorio", "habitación", "habitacion",
                      "cuarto"]),
         ("kitchen", ["kitchen", "cocina"]),
         ("office", ["office", "oficina", "despacho"])],
      defaultValue := some "all", required := false })]

/-- `parameterExtractionRules[webhookName] || {}`. -/
def parameterExtractionRules (webhookName : String) :
    List (String × ParamRule) :=
  if webhookName = "area_control" then areaControlRules
  else if webhookName = "device_control" then deviceControlRules
  else if webhookName = "scene" then sceneRules
  else if webhookName = "send_notification" then sendNotificationRules
  else if webhookName = "sensor_report" then sensorReportRules
  else []

/-! ### `extractParameterByType` -/

/-- The synonym-resolution loop inside the pattern branch of
`extractParameterByType`: per value entry, first an exact synonym match,
then a mutual-prefix ("stem") match. -/
def synonymHit (matched : String) (synonyms : List (String × List String)) :
    Option String :=
  synonyms.findSome? fun vs =>
    if vs.2.contains matched then some vs.1
    else if vs.2.any (fun syn =>
        jsStartsWith syn matched || jsStartsWith matched syn) then some vs.1
    else none

/-- `extractParameterByType(paramType, text)`: pattern extraction (with
value/synonym resolution of the matched word) first; on any failure it
falls through to substring checks of the exact values, then of the
synonyms. -/
def extractParameterByType (paramType : String) (text : String) :
    Option String :=
  match parameterTypes paramType with
  | none => none
  | some td =>
    let fromPattern : Option String :=
      match td.extractPattern with
      | some pat =>
        match runPatternGroup pat 1 text with
        | some m =>
          let matched := jsToLower m
          if td.values.contains matched then some matched
          else synonymHit matched td.synonyms
        | none => none
      | none => none
    match fromPattern with
    | some v => some v
    | none =>
      match td.values.find? (fun v => jsIncludes text v) with
      | some v => some v
      | none =>
        td.synonyms.findSome? fun vs =>
          if vs.2.any (fun syn => jsIncludes text syn) then some vs.1
          else none

/-! ### `extractParametersFromMessage`

The per-parameter body is translated stage by stage.  Mirroring the JS
control flow: a parameter whose current value is truthy is skipped; the
type-based stage, when it produces a truthy value, sets it and `continue`s;
the keyword stage sets the first hit; the rule-pattern stage runs only when
the parameter is still falsy, as does the `send_notification` `message`
phrase fallback and the default value.  The value written never depends on
the (falsy) current value, which the later stages observe only through the
truthiness of what earlier stages set. -/

/-- Stage 1: `if (rule.type && PARAMETER_TYPES[rule.type])`, the extracted
value being written only when truthy. -/
def stageType (rule : ParamRule) (lowerText : String) : Option String :=
  match rule.type with
  | some t =>
    if t != "" && (parameterTypes t).isSome then
      match extractParameterByType t lowerText with
      | some tv => if tv != "" then some tv else none
      | none => none
    else none
  | none => none

/-- Stage 2: keyword extraction — the first value one of whose keywords is
a substring of the lowercased message. -/
def stageKeywords (rule : ParamRule) (lowerText : String) : Option String :=
  rule.keywords.findSome? fun vk =>
    if vk.2.any (fun kw => jsIncludes lowerText kw) then some vk.1 else none

/-- Stage 3: pattern extraction against the original-case message with the
configured capture group (default 1); a truthy capture is trimmed. -/
def stagePattern (rule : ParamRule) (origText : String) : Option String :=
  match rule.extractPattern with
  | some pat =>
    match runPatternGroup pat (rule.extractGroup.getD 1) origText with
    | some g => if g != "" then some (jsTrim g) else none
    | none => none
  | none => none

/-- The phrase list of the special `send_notification` `message` case. -/
def messagePhrases : List String :=
  ["diciendo que", "que diga", "con el mensaje", "enviando", "send"]

/-- Stage 4: the `send_notification` `message` special case — the trimmed
original-case suffix after the first phrase found in the lowercased text. -/
def stagePhrase (origText lowerText : String) : Option String :=
  messagePhrases.findSome? fun phrase =>
    match jsIndexOf lowerText phrase with
    | some idx => some (jsTrim (jsSubstringFrom origText (idx + phrase.data.length)))
    | none => none

/-- The value written for one (currently falsy) parameter, composing the
stages with the source's guards. `none` means nothing is written. -/
def extractParamNewVal (webhookName origText lowerText paramName : String)
    (rule : ParamRule) : Option String :=
  match stageType rule lowerText with
  | some tv => some tv
  | none =>
    let s2 := stageKeywords rule lowerText
    let s3 :=
      if rule.extractPattern.isSome && !(truthyOpt s2) then
        match stagePattern rule origText with
        | some g => some g
        | none => s2
      else s2
    let s4 :=
      if paramName == "message" && webhookName == "send_notification"
          && !(truthyOpt s3) then
        match stagePhrase origText lowerText with
        | some v => some v
        | none => s3
      else s3
    if !(truthyOpt s4) && rule.defaultValue.isSome then rule.defaultValue
    else s4

/-- One parameter step: `some v` when the loop body writes
`extractedParams[paramName] = v`, `none` when it writes nothing (a truthy
current value is skipped by the `continue` at the top of the loop). -/
def extractParamWrite (webhookName origText lowerText paramName : String)
    (rule : ParamRule) (current : Option JsVal) : Option String :=
  if truthyVal current then none
  else extractParamNewVal webhookName origText lowerText paramName rule

/-- One iteration of the parameter loop applied to the accumulated object. -/
def extractStep (webhookName origText lowerText : String) (ps : Params)
    (nr : String × ParamRule) : Params :=
  match extractParamWrite webhookName origText lowerText nr.1 nr.2
      (assocLookup ps nr.1) with
  | some v => assocSet ps nr.1 (some v)
  | none => ps

/-- `extractParametersFromMessage(userMessage, webhookName, existingParams)`
(the JS default for `existingParams` is the empty object). -/
def extractParametersFromMessage (userMessage webhookName : String)
    (existingParams : Params) : Params :=
  let lowerText := jsToLower userMessage
  (parameterExtractionRules webhookName).foldl
    (extractStep webhookName userMessage lowerText) existingParams

/-! ### `validateParameters` and `generateErrorMessage` -/

/-- A `missingParams` entry. -/
structure MissingEntry where
  name : String
  validValues : List String
  deriving DecidableEq, Repr

/-- An `invalidParams` entry (`value` keeps the raw supplied value). -/
structure InvalidEntry where
  name : String
  value : JsVal
  validValues : List String
  deriving DecidableEq, Repr

/-- The validation report. -/
structure ValidationResult where
  isValid : Bool
  missingParams : List MissingEntry
  invalidParams : List InvalidEntry
  deriving DecidableEq, Repr

/-- `!params.hasOwnProperty(p) || params[p] === null || === undefined`. -/
def absentOrNull (params : Params) (name : String) : Bool :=
  match assocLookup params name with
  | none => true
  | some none => true
  | some (some _) => false

/-- `rule.validValues.includes(v)` (a `null` value is never a member). -/
def jsValIncludes (vs : List String) : JsVal → Bool
  | some s => vs.contains s
  | none => false

/-- The loop body of `validateParameters` for one declared parameter. -/
def validateStep (params : Params) (acc : ValidationResult)
    (nr : String × ParamRule) : ValidationResult :=
  if nr.2.required && absentOrNull params nr.1 then
    { acc with isValid := false,
               missingParams := acc.missingParams ++
                 [{ name := nr.1, validValues := nr.2.validValues }] }
  else
    match assocLookup params nr.1 with
    | none => acc
    | some v =>
      if !nr.2.validValues.isEmpty && !(jsValIncludes nr.2.validValues v) then
        { acc with isValid := false,
                   invalidParams := acc.invalidParams ++
                     [{ name := nr.1, value := v,
                        validValues := nr.2.validValues }] }
      else acc

/-- `validateParameters(webhookName, params)`. -/
def validateParameters (webhookName : String) (params : Params) :
    ValidationResult :=
  (parameterExtractionRules webhookName).foldl (validateStep params)
    { isValid := true, missingParams := [], invalidParams := [] }

/-- One line of the missing-parameters block of `generateErrorMessage`. -/
def missingLine (p : MissingEntry) : String :=
  if !p.validValues.isEmpty then
    "- " ++ p.name ++ ": debe ser uno de [" ++
      String.intercalate ", " p.validValues ++ "]\n"
  else "- " ++ p.name ++ "\n"

/-- One line of the invalid-parameters block (a JS `null` value prints as
the string `null` in a template literal). -/
def invalidLine (p : InvalidEntry) : String :=
  "- " ++ p.name ++ ": " ++ sqS ++ p.value.getD "null" ++ sqS ++
    " no es válido. Valores permitidos: [" ++
    String.intercalate ", " p.validValues ++ "]\n"

/-- `generateErrorMessage(webhookName, validationResult)`. -/
def generateErrorMessage (webhookName : String) (vr : ValidationResult) :
    String :=
  let m1 := "❌ No se pudieron validar los parámetros para " ++ webhookName ++
    ":\n\n"
  let m2 :=
    if vr.missingParams.length > 0 then
      "Parámetros faltantes:\n" ++ String.join (vr.missingParams.map missingLine)
    else ""
  let m3 :=
    if vr.invalidParams.length > 0 then
      "\nParámetros inválidos:\n" ++ String.join (vr.invalidParams.map invalidLine)
    else ""
  m1 ++ m2 ++ m3 ++ "\nPor favor intenta nuevamente con los parámetros correctos."

/-! ### Association-list lemmas -/

theorem assocLookup_assocSet {α : Type} (ps : List (String × α)) (k : String)
    (v : α) (key : String) :
    assocLookup (assocSet ps k v) key =
      if key = k then some v else assocLookup ps key := by
  induction ps with
  | nil =>
    rcases eq_or_ne key k with h | h
    · subst h; simp [assocSet, assocLookup]
    · simp [assocSet, assocLookup, h, (Ne.symm h)]
  | cons p rest ih =>
    obtain ⟨a, w⟩ := p
    by_cases ha : a = k
    · subst ha
      rcases eq_or_ne key a with h | h
      · subst h; simp [assocSet, assocLookup]
      · simp [assocSet, assocLookup, h, (Ne.symm h)]
    · rcases eq_or_ne key k with h | h
      · subst h
        simp [assocSet, assocLookup, ha, ih, (Ne.symm (fun hh => ha hh.symm))]
      · by_cases hak : a = key <;> simp [assocSet, assocLookup, ha, hak, ih, h]

theorem assocSet_self {α : Type} (ps : List (String × α)) (k : String) (v : α)
    (h : assocLookup ps k = some v) : assocSet ps k v = ps := by
  induction ps with
  | nil => simp [assocLookup] at h
  | cons p rest ih =>
    obtain ⟨a, w⟩ := p
    by_cases ha : a = k
    · subst ha
      simp [assocLookup] at h
      simp [assocSet, h]
    · simp [assocLookup, ha] at h
      simp [assocSet, ha, ih h]

/-! ### Structural lemmas about the extraction fold -/

/-- The value-level effect of one parameter iteration on its own key. -/
def extractValStep (webhookName origText lowerText paramName : String)
    (rule : ParamRule) (v : Option JsVal) : Option JsVal :=
  match extractParamWrite webhookName origText lowerText paramName rule v with
  | some u => some (some u)
  | none => v

theorem extractStep_lookup_other (w ot lt : String) (ps : Params)
    (nr : String × ParamRule) (key : String) (h : key ≠ nr.1) :
    assocLookup (extractStep w ot lt ps nr) key = assocLookup ps key := by
  unfold extractStep
  rcases hw : extractParamWrite w ot lt nr.1 nr.2 (assocLookup ps nr.1) with _ | u
  · simp
  · simp [assocLookup_assocSet, h]

theorem extractStep_lookup_self (w ot lt : String) (ps : Params)
    (nr : String × ParamRule) :
    assocLookup (extractStep w ot lt ps nr) nr.1 =
      extractValStep w ot lt nr.1 nr.2 (assocLookup ps nr.1) := by
  unfold extractStep extractValStep
  rcases hw : extractParamWrite w ot lt nr.1 nr.2 (assocLookup ps nr.1) with _ | u
  · simp
  · simp [assocLookup_assocSet]

theorem extractStep_fix (w ot lt : String) (ps : Params)
    (nr : String × ParamRule) (v0 : Option JsVal)
    (h : assocLookup ps nr.1 = extractValStep w ot lt nr.1 nr.2 v0) :
    extractStep w ot lt ps nr = ps := by
  unfold extractValStep extractParamWrite at h
  unfold extractStep extractParamWrite
  by_cases ht0 : truthyVal v0
  · simp [ht0] at h
    simp [h, ht0]
  · simp [ht0] at h
    rcases hN : extractParamNewVal w ot lt nr.1 nr.2 with _ | u
    · simp [hN] at h
      simp [h, ht0, hN]
    · simp [hN] at h
      by_cases hu : u = ""
      · subst hu
        simp [h, truthyVal, hN]
        exact assocSet_self ps nr.1 (some "") h
      · simp [h, truthyVal, hu]

theorem foldl_extractStep_lookup_not_mem (w ot lt : String) :
    ∀ (rules : List (String × ParamRule)) (ps : Params) (n : String),
      n ∉ rules.map Prod.fst →
      assocLookup (rules.foldl (extractStep w ot lt) ps) n = assocLookup ps n := by
  intro rules
  induction rules with
  | nil => intro ps n _; rfl
  | cons nr rest ih =>
    intro ps n hn
    simp only [List.map_cons, List.mem_cons, not_or] at hn
    rw [List.foldl_cons, ih _ n hn.2, extractStep_lookup_other _ _ _ _ _ _ hn.1]

theorem foldl_extractStep_lookup_mem (w ot lt : String) :
    ∀ (rules : List (String × ParamRule)) (ps : Params) (n : String)
      (r : ParamRule), (n, r) ∈ rules → (rules.map Prod.fst).Nodup →
      assocLookup (rules.foldl (extractStep w ot lt) ps) n =
        extractValStep w ot lt n r (assocLookup ps n) := by
  intro rules
  induction rules with
  | nil => intro ps n r hmem _; simp at hmem
  | cons nr rest ih =>
    intro ps n r hmem hnd
    simp only [List.map_cons, List.nodup_cons] at hnd
    rw [List.foldl_cons]
    rcases List.mem_cons.mp hmem with heq | hrest
    · have h1 : n = nr.1 := by rw [← heq]
      have h2 : r = nr.2 := by rw [← heq]
      subst h1; subst h2
      rw [foldl_extractStep_lookup_not_mem _ _ _ _ _ _ hnd.1,
        extractStep_lookup_self]
    · have hne : n ≠ nr.1 := by
        intro hcontra
        exact hnd.1 (hcontra ▸ List.mem_map_of_mem Prod.fst hrest)
      rw [ih _ n r hrest hnd.2, extractStep_lookup_other _ _ _ _ _ _ hne]

theorem foldl_extractStep_preserves_truthy (w ot lt : String) :
    ∀ (rules : List (String × ParamRule)) (ps : Params) (k s : String),
      assocLookup ps k = some (some s) → s ≠ "" →
      assocLookup (rules.foldl (extractStep w ot lt) ps) k = some (some s) := by
  intro rules
  induction rules with
  | nil => intro ps k s h _; exact h
  | cons nr rest ih =>
    intro ps k s h hs
    rw [List.foldl_cons]
    refine ih _ k s ?_ hs
    by_cases hk : k = nr.1
    · subst hk
      unfold extractStep extractParamWrite
      simp [h, truthyVal, hs]
    · rw [extractStep_lookup_other _ _ _ _ _ _ hk]; exact h

/-! ### Characterization of `validateParameters` (for C1) -/

/-- The declared required parameters that are absent or null in `params`,
in declaration order, with their allowed values. -/
def missingOf (params : Params) : List (String × ParamRule) → List MissingEntry
  | [] => []
  | nr :: rest =>
    if nr.2.required && absentOrNull params nr.1 then
      { name := nr.1, validValues := nr.2.validValues } :: missingOf params rest
    else missingOf params rest

/-- The declared parameters supplied with a (non-null) value lying outside
a declared non-empty allowed-values set, in declaration order. -/
def invalidOf (params : Params) : List (String × ParamRule) → List InvalidEntry
  | [] => []
  | nr :: rest =>
    match assocLookup params nr.1 with
    | some (some s) =>
      if !nr.2.validValues.isEmpty && !(jsValIncludes nr.2.validValues (some s)) then
        { name := nr.1, value := some s, validValues := nr.2.validValues }
          :: invalidOf params rest
      else invalidOf params rest
    | _ => invalidOf params rest

/-- In the actual rule table every parameter carrying a non-empty
`validValues` list is also `required` (this is what makes the claim's
reading of `invalid` coincide with the sequenced code). -/
def requiredWithValuesOnly (rules : List (String × ParamRule)) : Bool :=
  rules.all fun nr => nr.2.validValues.isEmpty || nr.2.required

theorem parameterExtractionRules_cases (w : String) :
    parameterExtractionRules w = areaControlRules ∨
    parameterExtractionRules w = deviceControlRules ∨
    parameterExtractionRules w = sceneRules ∨
    parameterExtractionRules w = sendNotificationRules ∨
    parameterExtractionRules w = sensorReportRules ∨
    parameterExtractionRules w = [] := by
  unfold parameterExtractionRules
  split_ifs <;> simp

theorem rules_requiredWithValuesOnly (w : String) :
    requiredWithValuesOnly (parameterExtractionRules w) = true := by
  rcases parameterExtractionRules_cases w with h | h | h | h | h | h <;>
    rw [h] <;> decide

theorem validate_foldl_char (params : Params) :
    ∀ (rules : List (String × ParamRule)) (acc : ValidationResult),
      requiredWithValuesOnly rules = true →
      rules.foldl (validateStep params) acc =
        { isValid := acc.isValid && (missingOf params rules).isEmpty
            && (invalidOf params rules).isEmpty,
          missingParams := acc.missingParams ++ missingOf params rules,
          invalidParams := acc.invalidParams ++ invalidOf params rules } := by
  intro rules
  induction rules with
  | nil => intro acc _; simp [missingOf, invalidOf]
  | cons nr rest ih =>
    intro acc hprop
    rw [requiredWithValuesOnly, List.all_cons, Bool.and_eq_true] at hprop
    rw [List.foldl_cons, ih _ hprop.2]
    by_cases hc1 : (nr.2.required && absentOrNull params nr.1) = true
    · have habs : absentOrNull params nr.1 = true := by
        have h := hc1
        rw [Bool.and_eq_true] at h
        exact h.2
      have hinv : invalidOf params (nr :: rest) = invalidOf params rest := by
        rw [invalidOf]
        rcases hl : assocLookup params nr.1 with _ | v
        · rfl
        · rcases v with _ | s
          · rfl
          · rw [absentOrNull, hl] at habs; simp at habs
      rw [hinv]
      rw [show missingOf params (nr :: rest) =
          { name := nr.1, validValues := nr.2.validValues }
            :: missingOf params rest by rw [missingOf, if_pos hc1]]
      simp [validateStep, hc1]
    · rw [show missingOf params (nr :: rest) = missingOf params rest by
        rw [missingOf, if_neg hc1]]
      rcases hl : assocLookup params nr.1 with _ | v
      · have hinv : invalidOf params (nr :: rest) = invalidOf params rest := by
          rw [invalidOf, hl]
        rw [hinv]
        simp [validateStep, hc1, hl]
      · rcases v with _ | s
        · have hreq : nr.2.required = false := by
            by_contra hr
            rw [Bool.not_eq_false] at hr
            rw [Bool.and_eq_true] at hc1
            exact hc1 ⟨hr, by rw [absentOrNull, hl]⟩
          have hvv : nr.2.validValues.isEmpty = true := by
            rcases Bool.or_eq_true_iff.mp hprop.1 with h | h
            · exact h
            · rw [hreq] at h; exact absurd h (by simp)
          have hinv : invalidOf params (nr :: rest) = invalidOf params rest := by
            rw [invalidOf, hl]
          rw [hinv]
          simp [validateStep, hc1, hl, hvv]
        · by_cases hc2 : (!nr.2.validValues.isEmpty
              && !(jsValIncludes nr.2.validValues (some s))) = true
          · have hinv : invalidOf params (nr :: rest) =
                { name := nr.1, value := some s, validValues := nr.2.validValues }
                  :: invalidOf params rest := by
              simp [invalidOf, hl, hc2]
            rw [hinv]
            simp [validateStep, hc1, hl, hc2]
          · have hinv : invalidOf params (nr :: rest) = invalidOf params rest := by
              simp [invalidOf, hl, hc2]
            rw [hinv]
            simp [validateStep, hc1, hl, hc2]

/-- C1: `validateParameters(actionId, params)` is total (a Lean function;
the JS body performs no I/O and cannot throw), its `missingParams` are
exactly the declared required parameters absent or null in `params`, its
`invalidParams` are exactly the parameters supplied with a value outside a
declared non-empty allowed-values set, `isValid` holds iff both lists are
empty, and an `actionId` with no declared rules yields the trivially valid
report. -/
theorem c1_validateParameters_characterization (actionId : String)
    (params : Params) :
    (validateParameters actionId params).missingParams =
      missingOf params (parameterExtractionRules actionId) ∧
    (validateParameters actionId params).invalidParams =
      invalidOf params (parameterExtractionRules actionId) ∧
    ((validateParameters actionId params).isValid = true ↔
      ((validateParameters actionId params).missingParams = [] ∧
       (validateParameters actionId params).invalidParams = [])) ∧
    (parameterExtractionRules actionId = [] →
      validateParameters actionId params =
        { isValid := true, missingParams := [], invalidParams := [] }) := by
  have hchar := validate_foldl_char params (parameterExtractionRules actionId)
    { isValid := true, missingParams := [], invalidParams := [] }
    (rules_requiredWithValuesOnly actionId)
  rw [validateParameters, hchar]
  refine ⟨by simp, by simp, ?_, ?_⟩
  · simp [List.isEmpty_iff]
  · intro hempty
    rw [hempty]
    simp [missingOf, invalidOf]

/-- Witness for C1 at a concrete input (spec scenario 3: `area` missing). -/
theorem c1_witness :
    (validateParameters "area_control" [("turn", some "off")]).missingParams =
      missingOf [("turn", some "off")] (parameterExtractionRules "area_control") ∧
    (validateParameters "area_control" [("turn", some "off")]).missingParams =
      [{ name := "area", validValues := ["office", "room"] }] :=
  ⟨(c1_validateParameters_characterization "area_control"
      [("turn", some "off")]).1, by decide⟩

/-! ### C2: overwriting and idempotence of extraction -/

/-- C2 counterexample: the claim promises that a key already present in
`existingParams` is never overwritten, but the skip test is JS truthiness,
so a key present with the empty-string value is re-extracted: on message
`"on"` for `area_control` with existing `turn := ""`, the result maps
`turn` to `"on"`. -/
theorem c2_counterexample :
    ¬ (∀ (text actionId : String) (existing : Params) (k : String) (v : JsVal),
        assocLookup existing k = some v →
        assocLookup (extractParametersFromMessage text actionId existing) k =
          some v) := by
  intro h
  have h1 := h "on" "area_control" [("turn", some "")] "turn" (some "")
    (by decide)
  have h2 : assocLookup
      (extractParametersFromMessage "on" "area_control" [("turn", some "")])
      "turn" = some (some "on") := by decide
  rw [h2] at h1
  exact absurd h1 (by decide)

theorem foldl_extractStep_pair_idem (w ot lt : String) (n1 n2 : String)
    (r1 r2 : ParamRule) (hne : n1 ≠ n2) (e : Params) :
    List.foldl (extractStep w ot lt)
        (List.foldl (extractStep w ot lt) e [(n1, r1), (n2, r2)])
        [(n1, r1), (n2, r2)] =
      List.foldl (extractStep w ot lt) e [(n1, r1), (n2, r2)] := by
  simp only [List.foldl_cons, List.foldl_nil]
  have hl1 : assocLookup
      (extractStep w ot lt (extractStep w ot lt e (n1, r1)) (n2, r2)) n1 =
      extractValStep w ot lt n1 r1 (assocLookup e n1) := by
    rw [extractStep_lookup_other _ _ _ _ _ _ hne, extractStep_lookup_self]
  rw [extractStep_fix w ot lt _ (n1, r1) _ hl1]
  exact extractStep_fix w ot lt _ (n2, r2) _
    (extractStep_lookup_self w ot lt (extractStep w ot lt e (n1, r1)) (n2, r2))

theorem foldl_extractStep_single_idem (w ot lt : String) (n1 : String)
    (r1 : ParamRule) (e : Params) :
    List.foldl (extractStep w ot lt)
        (List.foldl (extractStep w ot lt) e [(n1, r1)]) [(n1, r1)] =
      List.foldl (extractStep w ot lt) e [(n1, r1)] := by
  simp only [List.foldl_cons, List.foldl_nil]
  exact extractStep_fix w ot lt _ (n1, r1) _
    (extractStep_lookup_self w ot lt e (n1, r1))

/-- C2 (amended): `extractParametersFromMessage` is a pure function (so two
calls on the same inputs agree), it never overwrites a key whose existing
value is truthy (non-null and non-empty) — the JS skip test is truthiness,
so an existing empty-string value can be overwritten, which is what the
counterexample forces us to except — and re-running extraction on its own
output changes nothing; absence is expressed by omitting the key (the
function is total and never throws). -/
theorem c2_amended_truthy_preservation_and_idempotence :
    (∀ (text actionId : String) (existing : Params) (k s : String),
        assocLookup existing k = some (some s) → s ≠ "" →
        assocLookup (extractParametersFromMessage text actionId existing) k =
          some (some s)) ∧
    (∀ (text actionId : String) (existing : Params),
        extractParametersFromMessage text actionId
            (extractParametersFromMessage text actionId existing) =
          extractParametersFromMessage text actionId existing) := by
  constructor
  · intro text actionId existing k s hk hs
    exact foldl_extractStep_preserves_truthy _ _ _ _ _ _ _ hk hs
  · intro text actionId existing
    simp only [extractParametersFromMessage]
    rcases parameterExtractionRules_cases actionId with h | h | h | h | h | h <;>
      rw [h]
    · simp only [areaControlRules]
      exact foldl_extractStep_pair_idem actionId text (jsToLower text)
        "area" "turn" _ _ (by decide) existing
    · simp only [deviceControlRules]
      exact foldl_extractStep_pair_idem actionId text (jsToLower text)
        "device" "action" _ _ (by decide) existing
    · simp only [sceneRules]
      exact foldl_extractStep_single_idem actionId text (jsToLower text)
        "scene" _ existing
    · simp only [sendNotificationRules]
      exact foldl_extractStep_pair_idem actionId text (jsToLower text)
        "message" "to" _ _ (by decide) existing
    · simp only [sensorReportRules]
      exact foldl_extractStep_pair_idem actionId text (jsToLower text)
        "sensor" "location" _ _ (by decide) existing
    · rfl

/-- Witness for the amended C2 at a concrete input: an existing truthy
`turn` survives extraction unchanged. -/
theorem c2_amended_witness :
    assocLookup
      (extractParametersFromMessage "hola" "area_control" [("turn", some "off")])
      "turn" = some (some "off") :=
  c2_amended_truthy_preservation_and_idempotence.1 "hola" "area_control"
    [("turn", some "off")] "turn" "off" (by decide) (by decide)

/-! ### C3: the per-parameter extraction order -/

/-- The per-parameter extraction algorithm exactly as the claim words it
(claim-side definition, for comparison with the code-side function):
keyword/synonym matching first, then — only if no keyword matched and a
pattern is declared — pattern extraction with the configured capture group,
then the declared default, else unset. -/
def claimC3ParamValue (origText lowerText : String) (rule : ParamRule) :
    Option String :=
  match stageKeywords rule lowerText with
  | some v => some v
  | none =>
    match stagePattern rule origText with
    | some g => some g
    | none => rule.defaultValue

/-- Whole-message extraction as the claim describes it (parameters already
present in the accumulating mapping are left untouched). -/
def claimC3Extract (userMessage webhookName : String)
    (existingParams : Params) : Params :=
  let lowerText := jsToLower userMessage
  (parameterExtractionRules webhookName).foldl
    (fun ps nr =>
      if (assocLookup ps nr.1).isSome then ps
      else
        match claimC3ParamValue userMessage lowerText nr.2 with
        | some v => assocSet ps nr.1 (some v)
        | none => ps)
    existingParams

/-- C3 counterexample: on `"off on"` for `area_control` the code's
type-based extraction (whose regex is tried before any keyword) finds
`off` at the leftmost position, while the claim's keyword-first algorithm
finds the candidate value `on` (declared first) by substring; the two
algorithms disagree. -/
theorem c3_counterexample :
    extractParametersFromMessage "off on" "area_control" [] ≠
      claimC3Extract "off on" "area_control" [] ∧
    assocLookup (extractParametersFromMessage "off on" "area_control" [])
      "turn" = some (some "off") ∧
    assocLookup (claimC3Extract "off on" "area_control" []) "turn" =
      some (some "on") :=
  ⟨by decide, by decide, by decide⟩

/-- C3 (amended): for a declared parameter whose value in the existing
mapping is falsy, the code extracts in this order: first type-based
extraction when the schema declares a type (the type's own regex, then
exact value substrings, then synonym substrings); only if that fails,
keyword matching in declared order; only if still unset and a pattern is
declared, regex extraction with the configured capture group (default 1),
trimmed; then (for `send_notification`'s `message` only) a phrase-suffix
fallback; then the declared default; otherwise the parameter is unchanged. -/
theorem c3_amended_extraction_order
    (actionId text : String) (existing : Params) (n : String) (r : ParamRule)
    (hmem : (n, r) ∈ parameterExtractionRules actionId)
    (hnodup : ((parameterExtractionRules actionId).map Prod.fst).Nodup)
    (hfalsy : truthyVal (assocLookup existing n) = false) :
    (∀ v, stageType r (jsToLower text) = some v →
      assocLookup (extractParametersFromMessage text actionId existing) n =
        some (some v)) ∧
    (stageType r (jsToLower text) = none →
      ∀ v, stageKeywords r (jsToLower text) = some v → v ≠ "" →
        assocLookup (extractParametersFromMessage text actionId existing) n =
          some (some v)) ∧
    (stageType r (jsToLower text) = none →
      stageKeywords r (jsToLower text) = none →
      ∀ g, stagePattern r text = some g → g ≠ "" →
        assocLookup (extractParametersFromMessage text actionId existing) n =
          some (some g)) ∧
    (stageType r (jsToLower text) = none →
      stageKeywords r (jsToLower text) = none →
      stagePattern r text = none →
      ((n = "message" ∧ actionId = "send_notification") →
        stagePhrase text (jsToLower text) = none) →
      ∀ d, r.defaultValue = some d →
        assocLookup (extractParametersFromMessage text actionId existing) n =
          some (some d)) ∧
    (stageType r (jsToLower text) = none →
      stageKeywords r (jsToLower text) = none →
      stagePattern r text = none →
      ((n = "message" ∧ actionId = "send_notification") →
        stagePhrase text (jsToLower text) = none) →
      r.defaultValue = none →
      assocLookup (extractParametersFromMessage text actionId existing) n =
        assocLookup existing n) := by
  have hkey : assocLookup (extractParametersFromMessage text actionId existing) n
      = extractValStep actionId text (jsToLower text) n r
          (assocLookup existing n) :=
    foldl_extractStep_lookup_mem actionId text (jsToLower text) _ existing n r
      hmem hnodup
  have hphrbool : ∀ hsp : ¬(n = "message" ∧ actionId = "send_notification"),
      (n == "message" && actionId == "send_notification") = false := by
    intro hsp
    by_cases h1 : n = "message" <;> by_cases h2 : actionId = "send_notification" <;>
      simp [h1, h2] at hsp ⊢
  refine ⟨?_, ?_, ?_, ?_, ?_⟩
  · intro v hv
    rw [hkey]
    simp [extractValStep, extractParamWrite, hfalsy, extractParamNewVal, hv]
  · intro h1 v h2 hv
    rw [hkey]
    simp [extractValStep, extractParamWrite, hfalsy, extractParamNewVal, h1, h2,
      truthyOpt, hv]
  · intro h1 h2 g h3 hg
    have hp : r.extractPattern.isSome = true := by
      rcases hpat : r.extractPattern with _ | pat
      · rw [stagePattern, hpat] at h3; exact absurd h3 (by simp)
      · rfl
    rw [hkey]
    simp [extractValStep, extractParamWrite, hfalsy, extractParamNewVal, h1, h2,
      h3, hp, truthyOpt, hg]
  · intro h1 h2 h3 h4 d hd
    rw [hkey]
    by_cases hsp : n = "message" ∧ actionId = "send_notification"
    · have hph := h4 hsp
      obtain ⟨hn, ha⟩ := hsp
      subst hn; subst ha
      simp [extractValStep, extractParamWrite, hfalsy, extractParamNewVal, h1,
        h2, h3, hph, truthyOpt, hd]
    · simp [extractValStep, extractParamWrite, hfalsy, extractParamNewVal, h1,
        h2, h3, truthyOpt, hd, hphrbool hsp]
  · intro h1 h2 h3 h4 hd
    rw [hkey]
    by_cases hsp : n = "message" ∧ actionId = "send_notification"
    · have hph := h4 hsp
      obtain ⟨hn, ha⟩ := hsp
      subst hn; subst ha
      simp [extractValStep, extractParamWrite, hfalsy, extractParamNewVal, h1,
        h2, h3, hph, truthyOpt, hd]
    · simp [extractValStep, extractParamWrite, hfalsy, extractParamNewVal, h1,
        h2, h3, truthyOpt, hd, hphrbool hsp]

/-- Witness for the amended C3: on `"off on"` type-based extraction wins
for `turn` with value `off`. -/
theorem c3_amended_witness :
    assocLookup (extractParametersFromMessage "off on" "area_control" [])
      "turn" = some (some "off") :=
  (c3_amended_extraction_order "area_control" "off on" [] "turn"
      ((assocLookup areaControlRules "turn").getD {})
      (by decide) (by decide) (by decide)).1 "off" (by decide)

/-! ### `webhookHandler.js` — the registry -/

/-- A registered webhook's metadata. The JS handler function object is
abstracted by a numeric identifier interpreted by an outcome oracle. -/
structure WebhookReg where
  handler : Nat
  description : String
  externalId : String
  deriving DecidableEq, Repr

/-- The `WebhookHandler` state: the two maps set up by the constructor. -/
structure RegistryState where
  webhooks : List (String × WebhookReg)
  byExternalId : List (String × String)
  deriving DecidableEq, Repr

/-- The state of the freshly constructed handler. -/
def RegistryState.empty : RegistryState := { webhooks := [], byExternalId := [] }

/-- `getExternalIdFromEnv(name)`: read `NAME_WEBHOOK_ID` from the process
environment (modelled as a lookup function); a falsy value is discarded. -/
def getExternalIdFromEnv (env : String → Option String) (name : String) :
    Option String :=
  match env (String.mk (name.data.map Char.toUpper) ++ "_WEBHOOK_ID") with
  | some v => if v != "" then some v else none
  | none => none

/-- The `externalId || getExternalIdFromEnv(name) || name` chain (JS `||`
treats both `null` and `""` as falsy). -/
def effectiveExternalId (env : String → Option String) (name : String)
    (externalId : Option String) : String :=
  match externalId with
  | some e => if e != "" then e else (getExternalIdFromEnv env name).getD name
  | none => (getExternalIdFromEnv env name).getD name

/-- `register(name, handler, description, externalId)`: store the metadata
under the internal name (overwriting silently, after a console warning) and
point the effective external ID at the internal name. -/
def register (env : String → Option String) (s : RegistryState) (name : String)
    (handler : Nat) (description : String) (externalId : Option String) :
    RegistryState :=
  let eff := effectiveExternalId env name externalId
  { webhooks := assocSet s.webhooks name
      { handler := handler, description := description, externalId := eff },
    byExternalId := assocSet s.byExternalId eff name }

/-- The result shape of `findWebhook`: the JS object always carries `name`;
the spread of the stored record is `none` exactly when an external-ID entry
points at a name missing from `webhooks` (unreachable from `register`). -/
structure FoundWebhook where
  name : String
  info : Option WebhookReg
  deriving DecidableEq, Repr

/-- `findWebhook(idOrName)`: direct lookup by internal name first, then
lookup by external ID. -/
def findWebhook (s : RegistryState) (idOrName : String) : Option FoundWebhook :=
  match assocLookup s.webhooks idOrName with
  | some info => some { name := idOrName, info := some info }
  | none =>
    match assocLookup s.byExternalId idOrName with
    | some name => some { name := name, info := assocLookup s.webhooks name }
    | none => none

/-- The three return shapes of `handleWebhook`. -/
inductive HWResult where
  /-- `{error: true, message}` for an unknown identifier -/
  | notRegistered (message : String)
  /-- `{success: true, webhook, result}` (note: no `message` field) -/
  | ok (webhook : String) (result : String)
  /-- `{error: true, webhook, message}` when the handler throws -/
  | handlerError (webhook : String) (message : String)
  deriving DecidableEq, Repr

/-- Whether `result.error` is truthy. -/
def HWResult.isError : HWResult → Bool
  | .notRegistered _ => true
  | .handlerError _ _ => true
  | .ok _ _ => false

/-- The `message` field of the result (absent on success). -/
def HWResult.message : HWResult → Option String
  | .notRegistered m => some m
  | .handlerError _ m => some m
  | .ok _ _ => none

/-- `handleWebhook(idOrName, data)`: resolve the webhook, run its handler
inside `try`/`catch`, and convert a thrown error into an error-shaped
result instead of propagating. The handler is an oracle from handler
identifier and data to either a thrown message or a result string. -/
def handleWebhook (outcome : Nat → Params → Except String String)
    (s : RegistryState) (idOrName : String) (data : Params) : HWResult :=
  match findWebhook s idOrName with
  | none =>
    .notRegistered ("Webhook identifier " ++ sqS ++ idOrName ++ sqS ++
      " not registered")
  | some found =>
    match found.info with
    | some reg =>
      match outcome reg.handler data with
      | .ok r => .ok found.name r
      | .error m => .handlerError found.name m
    | none =>
      -- `webhookInfo.handler` is `undefined` here, so the call inside the
      -- `try` throws a TypeError, which the `catch` also converts.
      .handlerError found.name "webhookInfo.handler is not a function"

/-! ### Registry lemmas (for C10) -/

/-- One `register` call's arguments, for reasoning about call sequences. -/
structure RegisterCall where
  name : String
  handler : Nat
  description : String
  externalId : Option String
  deriving DecidableEq, Repr

/-- Run a sequence of `register` calls from a state. -/
def runRegisters (env : String → Option String) (s : RegistryState)
    (calls : List RegisterCall) : RegistryState :=
  calls.foldl (fun st c => register env st c.name c.handler c.description
    c.externalId) s

/-- Every external ID some call of the sequence was registered under. -/
def effectiveIdsOf (env : String → Option String) (calls : List RegisterCall) :
    List String :=
  calls.map fun c => effectiveExternalId env c.name c.externalId

/-- Invariant: every external-ID entry points at a registered name. -/
def registryInv (s : RegistryState) : Prop :=
  ∀ e nm, assocLookup s.byExternalId e = some nm →
    (assocLookup s.webhooks nm).isSome = true

theorem registryInv_empty : registryInv RegistryState.empty := by
  intro e nm h
  simp [RegistryState.empty, assocLookup] at h

theorem registryInv_register (env : String → Option String) (s : RegistryState)
    (name : String) (handler : Nat) (description : String)
    (externalId : Option String) (hinv : registryInv s) :
    registryInv (register env s name handler description externalId) := by
  intro e nm h
  simp only [register, assocLookup_assocSet] at h ⊢
  by_cases he : e = effectiveExternalId env name externalId
  · rw [if_pos he] at h
    cases h
    simp
  · rw [if_neg he] at h
    by_cases hn : nm = name
    · simp [hn]
    · rw [if_neg hn]
      exact hinv e nm h

theorem assocLookup_set_isSome_mono {α : Type} (ps : List (String × α))
    (k : String) (v : α) (key : String)
    (h : (assocLookup ps key).isSome = true) :
    (assocLookup (assocSet ps k v) key).isSome = true := by
  rw [assocLookup_assocSet]
  by_cases hk : key = k <;> simp [hk, h]

theorem runRegisters_byExt_mono (env : String → Option String) :
    ∀ (calls : List RegisterCall) (s : RegistryState) (e : String),
      (assocLookup s.byExternalId e).isSome = true →
      (assocLookup (runRegisters env s calls).byExternalId e).isSome = true := by
  intro calls
  induction calls with
  | nil => intro s e h; exact h
  | cons c rest ih =>
    intro s e h
    exact ih _ e (assocLookup_set_isSome_mono _ _ _ _ h)

theorem runRegisters_inv (env : String → Option String) :
    ∀ (calls : List RegisterCall) (s : RegistryState), registryInv s →
      registryInv (runRegisters env s calls) := by
  intro calls
  induction calls with
  | nil => intro s h; exact h
  | cons c rest ih =>
    intro s h
    exact ih _ (registryInv_register env s c.name c.handler c.description
      c.externalId h)

theorem runRegisters_ids_present (env : String → Option String) :
    ∀ (calls : List RegisterCall) (s : RegistryState) (e : String),
      e ∈ effectiveIdsOf env calls →
      (assocLookup (runRegisters env s calls).byExternalId e).isSome = true := by
  intro calls
  induction calls with
  | nil => intro s e h; simp [effectiveIdsOf] at h
  | cons c rest ih =>
    intro s e h
    rcases List.mem_cons.mp h with heq | hrest
    · refine runRegisters_byExt_mono env rest _ e ?_
      simp only [register, assocLookup_assocSet]
      rw [heq]
      simp [effectiveIdsOf]
    · exact ih _ e hrest

/-- C10: (1) after any sequence of `register` calls from the fresh state,
every external ID that was ever the effective ID of some call resolves via
`findWebhook` to an actual registration; (2) re-registering an internal
name under a different external ID overwrites the entry stored under the
name but keeps the earlier external-ID mapping, so a lookup by the old
external ID returns the newest registration of that name (provided the old
external ID is not itself shadowed by being another registered name). -/
theorem c10_registry_alias_persistence :
    (∀ (env : String → Option String) (calls : List RegisterCall) (e : String),
      e ∈ effectiveIdsOf env calls →
      ∃ fw, findWebhook (runRegisters env RegistryState.empty calls) e = some fw
        ∧ fw.info.isSome = true) ∧
    (∀ (env : String → Option String) (s : RegistryState) (n : String)
        (h1 : Nat) (d1 : String) (e1 : String) (h2 : Nat) (d2 : String)
        (e2 : String), e1 ≠ "" → e2 ≠ "" →
      (e1 = n ∨ assocLookup s.webhooks e1 = none) →
      findWebhook (register env (register env s n h1 d1 (some e1)) n h2 d2
          (some e2)) e1 =
        some ⟨n, some ⟨h2, d2, e2⟩⟩) := by
  constructor
  · intro env calls e he
    have hpresent := runRegisters_ids_present env calls RegistryState.empty e he
    have hinv := runRegisters_inv env calls RegistryState.empty registryInv_empty
    rcases hw : assocLookup (runRegisters env RegistryState.empty calls).webhooks e
      with _ | info
    · rcases hbe : assocLookup
          (runRegisters env RegistryState.empty calls).byExternalId e with _ | nm
      · rw [hbe] at hpresent; simp at hpresent
      · have hsome := hinv e nm hbe
        rcases hw2 : assocLookup (runRegisters env RegistryState.empty calls).webhooks
            nm with _ | info2
        · rw [hw2] at hsome; simp at hsome
        · refine ⟨{ name := nm, info := some info2 }, ?_, rfl⟩
          rw [findWebhook, hw, hbe]
          simp [hw2]
    · exact ⟨{ name := e, info := some info }, by rw [findWebhook, hw], rfl⟩
  · intro env s n h1 d1 e1 h2 d2 e2 he1 he2 hfresh
    have heff1 : effectiveExternalId env n (some e1) = e1 := by
      simp [effectiveExternalId, he1]
    have heff2 : effectiveExternalId env n (some e2) = e2 := by
      simp [effectiveExternalId, he2]
    rw [findWebhook]
    simp only [register, heff1, heff2, assocLookup_assocSet]
    rcases hfresh with he1n | hnone
    · subst he1n
      simp
    · by_cases he1eq : e1 = n
      · subst he1eq
        simp
      · simp [he1eq, hnone]

/-- Witness for C10 at concrete inputs: a registration under external ID
`ext1`, later re-registered under `ext2`, stays resolvable through `ext1`
and yields the newest registration. -/
theorem c10_witness :
    (∃ fw, findWebhook (runRegisters (fun _ => none) RegistryState.empty
        [{ name := "area_control", handler := 1, description := "d",
           externalId := some "ext1" }]) "ext1" = some fw
      ∧ fw.info.isSome = true) ∧
    findWebhook (register (fun _ => none)
        (register (fun _ => none) RegistryState.empty "area_control" 1 "d"
          (some "ext1")) "area_control" 2 "d2" (some "ext2")) "ext1" =
      some ⟨"area_control", some ⟨2, "d2", "ext2"⟩⟩ :=
  ⟨c10_registry_alias_persistence.1 (fun _ => none) _ "ext1" (by decide),
   c10_registry_alias_persistence.2 (fun _ => none) RegistryState.empty
     "area_control" 1 "d" "ext1" 2 "d2" "ext2" (by decide) (by decide)
     (Or.inr (by decide))⟩

/-! ### `commandHandler.js` -/

/-- `CommandHandler.handleMessage(msg)`: try each registered command prefix
in insertion order; on the first match run its handler on the sliced,
trimmed arguments inside `try`/`catch`, replying with the error message if
it throws. Returns whether a command was handled together with the replies
this method itself sends (a handler's own replies are its side effects,
abstracted by the outcome oracle). -/
def commandHandleMessage (outcome : Nat → String → Except String Unit)
    (commands : List (String × Nat)) (body : String) : Bool × List String :=
  let text := jsTrim body
  match commands.find? (fun pc => jsStartsWith text pc.1) with
  | some pc =>
    let args := jsTrim (String.mk (text.data.drop pc.1.length))
    match outcome pc.2 args with
    | .ok _ => (true, [])
    | .error m => (true, ["Error executing command: " ++ m])
  | none => (false, [])

/-- C7: dispatch failures are contained at the dispatch boundary. A local
command handler that throws is caught by `CommandHandler.handleMessage` and
converted into a user-visible failure reply carrying the exception message;
a webhook handler that throws makes `handleWebhook` return an error-shaped
result instead of propagating. Both functions are total, so no handler
exception escapes to the chat transport. -/
theorem c7_dispatch_failures_contained :
    (∀ (outcome : Nat → String → Except String Unit)
        (commands : List (String × Nat)) (body : String)
        (pc : String × Nat) (m : String),
      (commands.find? fun q => jsStartsWith (jsTrim body) q.1) = some pc →
      outcome pc.2
          (jsTrim (String.mk ((jsTrim body).data.drop pc.1.length))) =
        .error m →
      commandHandleMessage outcome commands body =
        (true, ["Error executing command: " ++ m])) ∧
    (∀ (outcome : Nat → Params → Except String String) (s : RegistryState)
        (idOrName : String) (data : Params) (fw : FoundWebhook)
        (reg : WebhookReg) (m : String),
      findWebhook s idOrName = some fw → fw.info = some reg →
      outcome reg.handler data = .error m →
      handleWebhook outcome s idOrName data = .handlerError fw.name m) := by
  constructor
  · intro outcome commands body pc m hfind herr
    simp [commandHandleMessage, hfind, herr]
  · intro outcome s idOrName data fw reg m hfind hinfo herr
    simp [handleWebhook, hfind, hinfo, herr]

/-- Witness for C7: a throwing command handler and a throwing webhook
handler, both converted at the boundary. -/
theorem c7_witness :
    commandHandleMessage (fun _ _ => Except.error "boom") [("!x", 0)]
        "!x hola" = (true, ["Error executing command: boom"]) ∧
    handleWebhook (fun _ _ => Except.error "kaput")
        (register (fun _ => none) RegistryState.empty "w" 0 "d" none) "w" [] =
      .handlerError "w" "kaput" :=
  ⟨c7_dispatch_failures_contained.1 (fun _ _ => Except.error "boom")
     [("!x", 0)] "!x hola" ("!x", 0) "boom" (by decide) rfl,
   c7_dispatch_failures_contained.2 (fun _ _ => Except.error "kaput")
     (register (fun _ => none) RegistryState.empty "w" 0 "d" none) "w" []
     ⟨"w", some ⟨0, "d", "w"⟩⟩ ⟨0, "d", "w"⟩ "kaput"
     (by decide) (by decide) rfl⟩

/-! ### The chatbot pipeline (`handleChatbotMessage`, part_005 revision)

Model calls are oracles: `none` models a call that threw or timed out, and
`some r` a normalized `{text, functionCall}` response (both the OpenAI
structured-tool path and the Ollama text path of `callAIModel` produce this
shape). The pipeline's observable behaviour is its trace of effects. -/

/-- A normalized function call (the internal shape produced both by the
structured-tool adapter and by `parseFunctionCallText`). -/
inductive FuncCall where
  /-- `{command, args}` -/
  | cmd (command : String) (args : String)
  /-- `{webhook, data}` -/
  | hook (webhook : String) (data : Params)
  /-- `{intent, confidence, reason}` (confidence kept as raw text; the
  float itself plays no role in control flow) -/
  | intentResult (intent : String) (confidence : Option String)
      (reason : Option String)
  deriving DecidableEq, Repr

/-- A normalized model response. -/
structure ModelResponse where
  text : String
  functionCall : Option FuncCall
  deriving DecidableEq, Repr

/-- Match `__execute_intent\(['"]([A-Z]+)['"]` at the head of the input and
return the capital-letter run (group 1). -/
def tryIntentAt (s : List Char) : Option String :=
  match matchLitCS "__execute_intent(".data s with
  | some rest =>
    match rest with
    | q :: r2 =>
      if isQuoteCh q then
        let run := r2.takeWhile fun c => c.isUpper
        if run.isEmpty then none
        else
          match r2.drop run.length with
          | q2 :: _ => if isQuoteCh q2 then some (String.mk run) else none
          | [] => none
      else none
    | [] => none
  | none => none

/-- Leftmost scan of a positional matcher over all suffixes. -/
def scanFirst {α : Type} (f : List Char → Option α) : List Char → Option α
  | [] => f []
  | c :: cs =>
    match f (c :: cs) with
    | some r => some r
    | none => scanFirst f cs

/-- The intent-regex fallback `/__execute_intent\(['"]([A-Z]+)['"]/`. -/
def parseIntentFromText (t : String) : Option String := scanFirst tryIntentAt t.data

/-- The text fallback of step 1: accept the parsed intent only when it is
one of the three buckets, else keep the `CHAT` default. -/
def intentTextFallback (t : String) : String :=
  match parseIntentFromText t with
  | some m => if m = "CHAT" ∨ m = "COMMAND" ∨ m = "WEBHOOK" then m else "CHAT"
  | none => "CHAT"

/-- Step 1 of `handleChatbotMessage`: the detected intent. A thrown or
timed-out intent call (`none`) leaves the initial `CHAT` default; a native
`detect_intent` call with a truthy `intent` field wins; otherwise the text
regex fallback is tried. -/
def detectedIntentOf (intentResponse : Option ModelResponse) : String :=
  match intentResponse with
  | none => "CHAT"
  | some r =>
    match r.functionCall with
    | some (.intentResult i _ _) =>
      if i != "" then i else intentTextFallback r.text
    | _ => intentTextFallback r.text

/-- Try `__execute_(?:command|webhook)\([^)]+\)` at the head; on success
return the matched text and the remaining input. -/
def tryExecMarkerAt (s : List Char) : Option (List Char × List Char) :=
  let tryOne : List Char → Option (List Char × List Char) := fun lit =>
    match matchLitCS lit s with
    | some rest =>
      let run := rest.takeWhile fun c => c != ')'
      if run.isEmpty then none
      else
        match rest.drop run.length with
        | c :: rest2 =>
          if c == ')' then some (lit ++ run ++ [c], rest2) else none
        | [] => none
    | none => none
  match tryOne "__execute_command(".data with
  | some r => some r
  | none => tryOne "__execute_webhook(".data

/-- Leftmost marker occurrence as `(before, matched, after)`. -/
def scanExecMarker : List Char → Option (List Char × List Char × List Char)
  | [] => none
  | c :: cs =>
    match tryExecMarkerAt (c :: cs) with
    | some (m, rest) => some ([], m, rest)
    | none =>
      match scanExecMarker cs with
      | some (pre, m, rest) => some (c :: pre, m, rest)
      | none => none

/-- `aiResponse.match(functionCallRegex)` — the matched marker text. -/
def findExecMarker (t : String) : Option String :=
  (scanExecMarker t.data).map fun r => String.mk r.2.1

/-- `aiResponse.replace(functionCallRegex, '')` (first occurrence only,
since the regex has no `g` flag). -/
def removeExecMarker (t : String) : String :=
  match scanExecMarker t.data with
  | some (pre, _, rest) => String.mk (pre ++ rest)
  | none => t

/-- Inner loop of the global `\s+` → `' '` replacement. -/
def collapseWsAux : Bool → List Char → List Char
  | _, [] => []
  | prevWs, c :: cs =>
    if c.isWhitespace then
      if prevWs then collapseWsAux true cs
      else ' ' :: collapseWsAux true cs
    else c :: collapseWsAux false cs

/-- `.replace(/\s+/g, ' ')`. The source's subsequent
`.replace(/\n\s*\n\s*\n/g, '\n\n')` is the identity here because no
newline survives the first replacement, and is therefore omitted. -/
def collapseWs (t : String) : String := String.mk (collapseWsAux false t.data)

/-- The cleanup applied to the response text after a text-based function
call is cut out: remove the first marker, trim, collapse whitespace, trim. -/
def cleanedResponse (t : String) : String :=
  jsTrim (collapseWs (jsTrim (removeExecMarker t)))

/-- Match the command-call regex
`__execute_command\(['"]([^'"]+)['"](?:,\s*['"]([^'"]+)['"])?\)` at the
head; returns `(command, args?)`. -/
def tryExecCommandAt (s : List Char) : Option (String × Option String) :=
  match matchLitCS "__execute_command(".data s with
  | some rest =>
    match rest with
    | q1 :: r1 =>
      if isQuoteCh q1 then
        let g1 := r1.takeWhile fun c => !(isQuoteCh c)
        if g1.isEmpty then none
        else
          match r1.drop g1.length with
          | q2 :: r2 =>
            if isQuoteCh q2 then
              match r2 with
              | ',' :: r3 =>
                let r4 := r3.dropWhile Char.isWhitespace
                match r4 with
                | q3 :: r5 =>
                  if isQuoteCh q3 then
                    let g2 := r5.takeWhile fun c => !(isQuoteCh c)
                    if g2.isEmpty then none
                    else
                      match r5.drop g2.length with
                      | q4 :: r6 =>
                        if isQuoteCh q4 then
                          match r6 with
                          | c :: _ =>
                            if c == ')' then
                              some (String.mk g1, some (String.mk g2))
                            else none
                          | [] => none
                        else none
                      | [] => none
                  else none
                | [] => none
              | ')' :: _ => some (String.mk g1, none)
              | _ => none
            else none
          | [] => none
      else none
    | [] => none
  | none => none

/-- Find the end of the lazy `{.+?}` group: the first position with at
least one content character where `}` is immediately followed by `)`;
returns the content and the input after the `)`. -/
def lazyBraceAux (acc : List Char) : List Char → Option (List Char × List Char)
  | [] => none
  | [_] => none
  | c :: c2 :: rest =>
    if c == rbraceCh && c2 == ')' && !acc.isEmpty then
      some (acc.reverse, rest)
    else lazyBraceAux (c :: acc) (c2 :: rest)

/-- Match the webhook-call regex
`__execute_webhook\(['"]([^'"]+)['"](?:,\s*({.+?}))?\)` (the `s` flag only
lets `.` cross newlines, which the character scan does anyway); returns
`(webhookId, dataString?)` where the data string includes its braces. -/
def tryExecWebhookAt (s : List Char) : Option (String × Option String) :=
  match matchLitCS "__execute_webhook(".data s with
  | some rest =>
    match rest with
    | q1 :: r1 =>
      if isQuoteCh q1 then
        let g1 := r1.takeWhile fun c => !(isQuoteCh c)
        if g1.isEmpty then none
        else
          match r1.drop g1.length with
          | q2 :: r2 =>
            if isQuoteCh q2 then
              match r2 with
              | ',' :: r3 =>
                let r4 := r3.dropWhile Char.isWhitespace
                match r4 with
                | b :: r5 =>
                  if b == lbraceCh then
                    match lazyBraceAux [] r5 with
                    | some (content, _) =>
                      some (String.mk g1,
                        some (String.mk (lbraceCh :: (content ++ [rbraceCh]))))
                    | none => none
                  else none
                | [] => none
              | ')' :: _ => some (String.mk g1, none)
              | _ => none
            else none
          | [] => none
      else none
    | [] => none
  | none => none

/-- Match the full intent regex
`__execute_intent\(['"]([^'"]+)['"](?:,\s*([\d\.]+))?\)` at the head;
returns `(intent, confidence?)`. -/
def tryExecIntentFullAt (s : List Char) : Option (String × Option String) :=
  match matchLitCS "__execute_intent(".data s with
  | some rest =>
    match rest with
    | q1 :: r1 =>
      if isQuoteCh q1 then
        let g1 := r1.takeWhile fun c => !(isQuoteCh c)
        if g1.isEmpty then none
        else
          match r1.drop g1.length with
          | q2 :: r2 =>
            if isQuoteCh q2 then
              match r2 with
              | ',' :: r3 =>
                let r4 := r3.dropWhile Char.isWhitespace
                let g2 := r4.takeWhile fun c => c.isDigit || c == '.'
                if g2.isEmpty then none
                else
                  match r4.drop g2.length with
                  | c :: _ =>
                    if c == ')' then some (String.mk g1, some (String.mk g2))
                    else none
                  | [] => none
              | ')' :: _ => some (String.mk g1, none)
              | _ => none
            else none
          | [] => none
      else none
    | [] => none
  | none => none

/-- Fuel-driven global replace `/(\w+):/g` → `"$1":` (fuel is the input
length: every step consumes at least one character). -/
def mungeNamesAux : Nat → List Char → List Char
  | 0, l => l
  | _ + 1, [] => []
  | fuel + 1, c :: cs =>
    if jsWordChar c then
      let run := c :: cs.takeWhile jsWordChar
      let rest := cs.drop (cs.takeWhile jsWordChar).length
      match rest with
      | ':' :: rest2 =>
        dquoteCh :: (run ++ (dquoteCh :: ':' :: mungeNamesAux fuel rest2))
      | _ => run ++ mungeNamesAux fuel rest
    else c :: mungeNamesAux fuel cs

/-- The quote normalization of `parseFunctionCallText` before `JSON.parse`:
single quotes become double quotes, then every word run directly followed
by a colon is wrapped in quotes. -/
def mungeJson (s : String) : String :=
  String.mk (mungeNamesAux (s.data.length + 1)
    (s.data.map fun c => if c == squote then dquoteCh else c))

/-- `str.dropWhile` for leading JSON whitespace. -/
def skipWs (l : List Char) : List Char := l.dropWhile Char.isWhitespace

/-- Parse a JSON string literal (escape sequences are not modelled: a
backslash simply stays in the value, as no rule value contains one). -/
def parseJsonString (l : List Char) : Option (String × List Char) :=
  match l with
  | c :: r =>
    if c == dquoteCh then
      let run := r.takeWhile fun ch => ch != dquoteCh
      match r.drop run.length with
      | c2 :: rest => if c2 == dquoteCh then some (String.mk run, rest) else none
      | [] => none
    else none
  | [] => none

/-- Parse a scalar JSON value. `null` becomes the stored `none`; numbers
and booleans are kept as their source text (they only ever flow into
membership tests against string lists, which they fail either way). -/
def parseJsonValue (l : List Char) : Option (JsVal × List Char) :=
  match skipWs l with
  | [] => none
  | c :: r =>
    if c == dquoteCh then
      (parseJsonString (c :: r)).map fun p => (some p.1, p.2)
    else if c.isDigit || c == '-' then
      let run := (c :: r).takeWhile fun ch => ch.isDigit || ch == '.' || ch == '-'
      some (some (String.mk run), (c :: r).drop run.length)
    else if (matchLitCS "true".data (c :: r)).isSome then
      some (some "true", (c :: r).drop 4)
    else if (matchLitCS "false".data (c :: r)).isSome then
      some (some "false", (c :: r).drop 5)
    else if (matchLitCS "null".data (c :: r)).isSome then
      some (none, (c :: r).drop 4)
    else none

/-- Parse the `"key": value` pairs of a flat object body up to the closing
brace (fuel-driven). -/
def parseJsonPairsAux : Nat → List Char → Params → Option Params
  | 0, _, _ => none
  | fuel + 1, l, acc =>
    match parseJsonString (skipWs l) with
    | some (k, r1) =>
      match skipWs r1 with
      | ':' :: r2 =>
        match parseJsonValue r2 with
        | some (v, r3) =>
          match skipWs r3 with
          | ',' :: r4 => parseJsonPairsAux fuel r4 (assocSet acc k v)
          | c :: r4 =>
            if c == rbraceCh then
              if (skipWs r4).isEmpty then some (assocSet acc k v) else none
            else none
          | [] => none
        | none => none
      | _ => none
    | none => none

/-- `JSON.parse` restricted to flat objects with scalar values — the shape
every webhook data literal in this codebase takes; nested objects or
arrays are modelled as a parse failure. -/
def parseJsonObjectLite (s : String) : Option Params :=
  match skipWs s.data with
  | c :: r =>
    if c == lbraceCh then
      match skipWs r with
      | c2 :: r2 =>
        if c2 == rbraceCh then
          if (skipWs r2).isEmpty then some [] else none
        else parseJsonPairsAux (s.data.length + 1) (c2 :: r2) []
      | [] => none
    else none
  | [] => none

/-- `parseFunctionCallText(text)`: the command pattern first, then the
webhook pattern (munging quotes and parsing JSON; a parse error falls
through), then the intent pattern, else `null`. -/
def parseFunctionCallText (t : String) : Option FuncCall :=
  match scanFirst tryExecCommandAt t.data with
  | some p => some (.cmd p.1 (p.2.getD ""))
  | none =>
    match scanFirst tryExecWebhookAt t.data with
    | some p =>
      match parseJsonObjectLite (mungeJson (p.2.getD (String.mk
          [lbraceCh, rbraceCh]))) with
      | some data => some (.hook p.1 data)
      | none =>
        (scanFirst tryExecIntentFullAt t.data).map fun q =>
          .intentResult q.1 q.2 none
    | none =>
      (scanFirst tryExecIntentFullAt t.data).map fun q =>
        .intentResult q.1 q.2 none

/-- The purpose string selected for the step-2 model call. -/
def purposeOf (intent : String) : String :=
  if intent = "COMMAND" then "command"
  else if intent = "WEBHOOK" then "webhook"
  else "chat"

/-- For a step-2 response: the `(aiResponse, functionCall)` pair after the
text-based function-call fallback (native call wins; otherwise the first
`__execute_command`/`__execute_webhook` marker is parsed and stripped). -/
def resolveResponse (r : ModelResponse) : String × Option FuncCall :=
  match r.functionCall with
  | some fc => (r.text, some fc)
  | none =>
    match findExecMarker r.text with
    | some m => (cleanedResponse r.text, parseFunctionCallText m)
    | none => (r.text, none)

/-- The user-visible effects of the pipeline, in order. `modelCall` records
an AI invocation (its purpose), `runCommand`/`runWebhook` the dispatch of a
local handler or of `handleWebhook`. -/
inductive Effect where
  | reply (message : String)
  | modelCall (purpose : String)
  | runCommand (command : String) (args : String)
  | runWebhook (name : String) (data : Params)
  deriving DecidableEq, Repr

/-- The environment of one `handleChatbotMessage` run: the settings flag,
the three model-call outcomes, and the command/webhook collaborators. -/
structure ChatbotEnv where
  enabled : Bool
  intentResponse : Option ModelResponse
  chatResponse : Option ModelResponse
  functionResponse : Option ModelResponse
  commands : List (String × Nat)
  commandOutcome : Nat → String → Except String Unit
  registry : RegistryState
  webhookOutcome : Nat → Params → Except String String

/-- The `catch (chatError)` fallback text of the CHAT branch. -/
def chatApology : String :=
  "Lo siento, tuve un problema generando una respuesta. Por favor intenta de nuevo."

/-- The `catch (functionError)` fallback text of the COMMAND/WEBHOOK branch. -/
def functionApology : String :=
  "Lo siento, tuve un problema procesando tu petición. Por favor intenta de nuevo."

/-- The outer `catch` fallback text. -/
def genericApology : String :=
  "Lo siento, tuve un problema procesando tu mensaje. Por favor intenta de nuevo."

/-- The reply for an unresolvable webhook name. -/
def notFoundReply (w : String) : String :=
  "❌ No encontré el webhook \"" ++ w ++ "\". Por favor verifica el nombre."

/-- The reply prefix for an error-shaped dispatch result. -/
def webhookFailReply (m : String) : String :=
  "❌ No pude completar la acción: " ++ m

/-- The success message: webhook-specific summaries for `area_control` and
`send_notification` (keyed on the *original* identifier of the function
call, not the resolved name); a success result carries no `message` field,
so the `result.message` branch is never taken and the generic confirmation
is used otherwise. -/
def webhookSuccessReply (originalW : String) (data : Params) : String :=
  if originalW = "area_control" then
    let area := match assocLookup data "area" with
      | some (some s) => if s != "" then s else "área"
      | _ => "área"
    let turn := match assocLookup data "turn" with
      | some (some s) => if s != "" then s else "estado"
      | _ => "estado"
    "✅ He " ++ (if turn = "on" then "encendido" else "apagado") ++
      " las luces del " ++ area
  else if originalW = "send_notification" then "✅ Mensaje enviado correctamente"
  else "✅ Acción completada con éxito"

/-- The follow-up message reporting the dispatch outcome. -/
def webhookOutcomeReply (originalW : String) (data : Params)
    (result : HWResult) : String :=
  match result with
  | .notRegistered m => webhookFailReply m
  | .handlerError _ m => webhookFailReply m
  | .ok _ _ => webhookSuccessReply originalW data

/-- `handleChatbotMessage(msg, text)` of the intent-routing revision, as
the ordered trace of its effects. Log-file appends (`logFunctionCall`) are
fire-and-forget file I/O and are not part of the observable trace. A
handler invoked for a command sends its own replies (abstracted by the
outcome oracle); if it throws, the outer catch adds the generic apology. -/
def handleChatbotMessage (env : ChatbotEnv) (text : String) : List Effect :=
  if text = "" then []
  else
    let detectedIntent := detectedIntentOf env.intentResponse
    if detectedIntent = "CHAT" then
      let aiResponse := match env.chatResponse with
        | some r => r.text
        | none => chatApology
      [.modelCall "intent", .modelCall "chat", .reply aiResponse]
    else
      let calls : List Effect :=
        [.modelCall "intent", .modelCall (purposeOf detectedIntent)]
      match env.functionResponse with
      | none => calls ++ [.reply functionApology]
      | some r =>
        let rp := resolveResponse r
        let responseToUser := rp.1
        match rp.2 with
        | none => calls ++ [.reply responseToUser]
        | some fc =>
          if env.enabled = false then
            -- JS: `responseToUser += ...` assigns to the `const` binding
            -- declared at the top of this block, so this branch throws a
            -- TypeError that the outer `catch` converts into the generic
            -- apology; the annotated reply and the early return that the
            -- source intends are never reached.
            calls ++ [.reply genericApology]
          else
            match fc with
            | .cmd c a =>
              if c != "" then
                match assocLookup env.commands c with
                | some h =>
                  calls ++
                    (if responseToUser != "" then [.reply responseToUser]
                     else []) ++
                    [.runCommand c a] ++
                    (match env.commandOutcome h a with
                     | .ok _ => []
                     | .error _ => [.reply genericApology])
                | none => calls ++ [.reply responseToUser]
              else calls ++ [.reply responseToUser]
            | .hook w d =>
              if w != "" then
                match findWebhook env.registry w with
                | none => calls ++ [.reply (notFoundReply w)]
                | some found =>
                  let extracted := extractParametersFromMessage text found.name d
                  let vr := validateParameters found.name extracted
                  if vr.isValid = false then
                    calls ++ [.reply (generateErrorMessage found.name vr)]
                  else
                    calls ++
                      (if responseToUser != "" then [.reply responseToUser]
                       else []) ++
                      [.runWebhook found.name extracted] ++
                      [.reply (webhookOutcomeReply w extracted
                        (handleWebhook env.webhookOutcome env.registry
                          found.name extracted))]
              else calls ++ [.reply responseToUser]
            | .intentResult _ _ _ => calls ++ [.reply responseToUser]

/-- The user-visible replies of a trace, in order. -/
def repliesOf (tr : List Effect) : List String :=
  tr.filterMap fun e =>
    match e with
    | .reply m => some m
    | _ => none

/-- Whether an effect dispatches a local command or a webhook. -/
def isDispatch : Effect → Bool
  | .runCommand _ _ => true
  | .runWebhook _ _ => true
  | _ => false

/-- The model-call purposes of a trace, in order. -/
def modelCallsOf (tr : List Effect) : List String :=
  tr.filterMap fun e =>
    match e with
    | .modelCall p => some p
    | _ => none

/-! ### C4: fallback to CHAT on classification failure -/

/-- The intent field of a parsed function call, when it has one. -/
def intentOfFC : Option FuncCall → Option String
  | some (.intentResult i _ _) => some i
  | _ => none

/-- The classification step failed: the model call threw or timed out, or
its response carries no truthy native intent and the text fallback also
leaves the `CHAT` default (no parseable intent, or one outside the three
buckets). -/
def classificationFailed (intentResponse : Option ModelResponse) : Prop :=
  match intentResponse with
  | none => True
  | some r =>
    (∀ i, intentOfFC r.functionCall = some i → i = "") ∧
      intentTextFallback r.text = "CHAT"

theorem detectedIntent_of_failure (ir : Option ModelResponse)
    (h : classificationFailed ir) : detectedIntentOf ir = "CHAT" := by
  rcases ir with _ | r
  · rfl
  · rw [classificationFailed] at h
    rw [detectedIntentOf]
    rcases hfc : r.functionCall with _ | fc
    · exact h.2
    · rcases fc with ⟨c, a⟩ | ⟨hk, d⟩ | ⟨i, cf, rs⟩
      · simpa using h.2
      · simpa using h.2
      · have hi : i = "" := h.1 i (by rw [hfc]; rfl)
        subst hi
        simpa using h.2

/-- C4: whenever the intent-classification step fails (throw/timeout,
malformed response, unparseable intent), the pipeline runs with the intent
defaulted to `CHAT`: it completes with exactly one user-visible reply (the
chat response, or the chat apology if the chat call also fails), and it
never dispatches a local command or a webhook. -/
theorem c4_classification_failure_falls_back_to_chat
    (env : ChatbotEnv) (text : String) (htext : text ≠ "")
    (hfail : classificationFailed env.intentResponse) :
    handleChatbotMessage env text =
      [.modelCall "intent", .modelCall "chat",
       .reply (match env.chatResponse with
               | some r => r.text
               | none => chatApology)] ∧
    (repliesOf (handleChatbotMessage env text)).length = 1 ∧
    (∀ e ∈ handleChatbotMessage env text, isDispatch e = false) := by
  have hint := detectedIntent_of_failure env.intentResponse hfail
  have htrace : handleChatbotMessage env text =
      [.modelCall "intent", .modelCall "chat",
       .reply (match env.chatResponse with
               | some r => r.text
               | none => chatApology)] := by
    rw [handleChatbotMessage, if_neg htext]
    simp [hint]
  refine ⟨htrace, ?_, ?_⟩
  · rw [htrace]
    rcases env.chatResponse with _ | r <;> rfl
  · rw [htrace]
    intro e he
    rcases env.chatResponse with _ | r <;>
      simp at he <;> rcases he with h | h | h <;> subst h <;> rfl

/-- A concrete environment for the C4 witness: the intent call throws and
the chat call answers normally. -/
def envC4 : ChatbotEnv :=
  { enabled := true,
    intentResponse := none,
    chatResponse := some ⟨"¡Hola! ¿En qué puedo ayudarte?", none⟩,
    functionResponse := none,
    commands := [("!clima", 0)],
    commandOutcome := fun _ _ => .ok (),
    registry := register (fun _ => none) RegistryState.empty "area_control" 1
      "Control de areas" none,
    webhookOutcome := fun _ _ => .ok "done" }

/-- Witness for C4: a thrown intent call yields one chat reply. -/
theorem c4_witness :
    handleChatbotMessage envC4 "cuéntame un chiste" =
      [.modelCall "intent", .modelCall "chat",
       .reply "¡Hola! ¿En qué puedo ayudarte?"] :=
  (c4_classification_failure_falls_back_to_chat envC4 "cuéntame un chiste"
    (by decide) trivial).1

/-! ### C5: validation failure blocks the webhook -/

/-- C5: when the resolved function call is a webhook whose layered
parameters (model-supplied `data` seeded into text extraction over the
original message) fail validation, the pipeline's only reply is the
itemized `generateErrorMessage` report, and no dispatch effect occurs —
the remote webhook is never invoked. -/
theorem c5_validation_failure_blocks_webhook
    (env : ChatbotEnv) (text : String) (r : ModelResponse) (aiResp w : String)
    (d : Params) (found : FoundWebhook)
    (htext : text ≠ "")
    (henabled : env.enabled = true)
    (hintent : detectedIntentOf env.intentResponse ≠ "CHAT")
    (hfr : env.functionResponse = some r)
    (hres : resolveResponse r = (aiResp, some (.hook w d)))
    (hw : w ≠ "")
    (hfind : findWebhook env.registry w = some found)
    (hinvalid : (validateParameters found.name
        (extractParametersFromMessage text found.name d)).isValid = false) :
    handleChatbotMessage env text =
      [.modelCall "intent",
       .modelCall (purposeOf (detectedIntentOf env.intentResponse)),
       .reply (generateErrorMessage found.name (validateParameters found.name
         (extractParametersFromMessage text found.name d)))] ∧
    (∀ e ∈ handleChatbotMessage env text, isDispatch e = false) ∧
    (repliesOf (handleChatbotMessage env text)).length = 1 := by
  have hwb : (w != "") = true := by simp [hw]
  have htrace : handleChatbotMessage env text =
      [.modelCall "intent",
       .modelCall (purposeOf (detectedIntentOf env.intentResponse)),
       .reply (generateErrorMessage found.name (validateParameters found.name
         (extractParametersFromMessage text found.name d)))] := by
    rw [handleChatbotMessage, if_neg htext]
    simp only [if_neg hintent, hfr, hres, henabled, hwb, hfind, hinvalid,
      if_pos rfl]
    simp
  refine ⟨htrace, ?_, ?_⟩
  · rw [htrace]
    intro e he
    simp at he
    rcases he with h | h | h <;> subst h <;> rfl
  · rw [htrace]; rfl

/-- A concrete environment for the C5 witness (spec scenario 3): the model
proposes `area_control` with only `turn` set, and the message names no
area. -/
def envC5 : ChatbotEnv :=
  { enabled := true,
    intentResponse := some ⟨"", some (.intentResult "WEBHOOK" none none)⟩,
    chatResponse := none,
    functionResponse := some ⟨"Voy a apagar las luces.",
      some (.hook "area_control" [("turn", some "off")])⟩,
    commands := [],
    commandOutcome := fun _ _ => .ok (),
    registry := register (fun _ => none) RegistryState.empty "area_control" 1
      "Control de areas" none,
    webhookOutcome := fun _ _ => .ok "done" }

/-- Witness for C5 on `"turn off the lights"`: the only reply is the
itemized validation error and no dispatch happens. -/
theorem c5_witness :
    handleChatbotMessage envC5 "turn off the lights" =
      [.modelCall "intent", .modelCall "webhook",
       .reply (generateErrorMessage "area_control"
         (validateParameters "area_control"
           (extractParametersFromMessage "turn off the lights" "area_control"
             [("turn", some "off")])))] ∧
    (∀ e ∈ handleChatbotMessage envC5 "turn off the lights",
      isDispatch e = false) :=
  ⟨(c5_validation_failure_blocks_webhook envC5 "turn off the lights"
      ⟨"Voy a apagar las luces.",
        some (.hook "area_control" [("turn", some "off")])⟩
      "Voy a apagar las luces." "area_control" [("turn", some "off")]
      ⟨"area_control", some ⟨1, "Control de areas", "area_control"⟩⟩
      (by decide) rfl (by decide) rfl rfl (by decide) (by decide)
      (by decide)).1,
   (c5_validation_failure_blocks_webhook envC5 "turn off the lights"
      ⟨"Voy a apagar las luces.",
        some (.hook "area_control" [("turn", some "off")])⟩
      "Voy a apagar las luces." "area_control" [("turn", some "off")]
      ⟨"area_control", some ⟨1, "Control de areas", "area_control"⟩⟩
      (by decide) rfl (by decide) rfl rfl (by decide) (by decide)
      (by decide)).2.1⟩

/-! ### C6: no function call found → raw text is the final reply -/

/-- C6: for a message classified COMMAND or WEBHOOK whose step-2 response
contains neither a native structured call nor a textual
`__execute_command`/`__execute_webhook` marker, the raw model text is sent
as the one and only reply, nothing is dispatched, and no third model call
is made (exactly the intent call and the single function call occur). -/
theorem c6_no_function_call_yields_raw_text
    (env : ChatbotEnv) (text : String) (r : ModelResponse)
    (htext : text ≠ "")
    (hintent : detectedIntentOf env.intentResponse = "COMMAND" ∨
        detectedIntentOf env.intentResponse = "WEBHOOK")
    (hfr : env.functionResponse = some r)
    (hnative : r.functionCall = none)
    (hmarker : findExecMarker r.text = none) :
    handleChatbotMessage env text =
      [.modelCall "intent",
       .modelCall (purposeOf (detectedIntentOf env.intentResponse)),
       .reply r.text] ∧
    repliesOf (handleChatbotMessage env text) = [r.text] ∧
    (∀ e ∈ handleChatbotMessage env text, isDispatch e = false) ∧
    (modelCallsOf (handleChatbotMessage env text)).length = 2 := by
  have hnc : detectedIntentOf env.intentResponse ≠ "CHAT" := by
    rcases hintent with h | h <;> rw [h] <;> decide
  have hres : resolveResponse r = (r.text, none) := by
    rw [resolveResponse, hnative, hmarker]
  have htrace : handleChatbotMessage env text =
      [.modelCall "intent",
       .modelCall (purposeOf (detectedIntentOf env.intentResponse)),
       .reply r.text] := by
    rw [handleChatbotMessage, if_neg htext]
    simp only [if_neg hnc, hfr, hres]
    simp
  refine ⟨htrace, by rw [htrace]; rfl, ?_, by rw [htrace]; rfl⟩
  rw [htrace]
  intro e he
  simp at he
  rcases he with h | h | h <;> subst h <;> rfl

/-- A concrete environment for the C6 witness: WEBHOOK classification, but
the function model only chats back. -/
def envC6 : ChatbotEnv :=
  { enabled := true,
    intentResponse := some ⟨"", some (.intentResult "WEBHOOK" none none)⟩,
    chatResponse := none,
    functionResponse := some ⟨"No tengo un webhook para eso.", none⟩,
    commands := [],
    commandOutcome := fun _ _ => .ok (),
    registry := RegistryState.empty,
    webhookOutcome := fun _ _ => .ok "done" }

/-- Witness for C6: the raw text is the single reply. -/
theorem c6_witness :
    handleChatbotMessage envC6 "enciende el horno" =
      [.modelCall "intent", .modelCall "webhook",
       .reply "No tengo un webhook para eso."] :=
  (c6_no_function_call_yields_raw_text envC6 "enciende el horno"
    ⟨"No tengo un webhook para eso.", none⟩ (by decide) (Or.inr rfl) rfl rfl
    (by decide)).1

/-! ### C8: the two-message reply order around a dispatch -/

/-- C8: for every dispatched function call the replies keep a fixed order:
the explanatory model text (when non-empty) is sent first, then the
dispatch happens, and for the webhook path the outcome summary follows as
a separate message; the outcome is never sent before the explanatory text.
For the command path the outcome is produced by the handler itself after
its `runCommand` effect (with the generic apology appended by the outer
catch if it throws). -/
theorem c8_two_message_order :
    (∀ (env : ChatbotEnv) (text : String) (r : ModelResponse)
        (aiResp c a : String) (h : Nat),
      text ≠ "" →
      detectedIntentOf env.intentResponse ≠ "CHAT" →
      env.functionResponse = some r →
      resolveResponse r = (aiResp, some (.cmd c a)) →
      env.enabled = true →
      c ≠ "" →
      assocLookup env.commands c = some h →
      handleChatbotMessage env text =
        [Effect.modelCall "intent",
         Effect.modelCall (purposeOf (detectedIntentOf env.intentResponse))] ++
        (if aiResp != "" then [Effect.reply aiResp] else []) ++
        [Effect.runCommand c a] ++
        (match env.commandOutcome h a with
         | .ok _ => []
         | .error _ => [Effect.reply genericApology])) ∧
    (∀ (env : ChatbotEnv) (text : String) (r : ModelResponse)
        (aiResp w : String) (d : Params) (found : FoundWebhook),
      text ≠ "" →
      detectedIntentOf env.intentResponse ≠ "CHAT" →
      env.functionResponse = some r →
      resolveResponse r = (aiResp, some (.hook w d)) →
      env.enabled = true →
      w ≠ "" →
      findWebhook env.registry w = some found →
      (validateParameters found.name
        (extractParametersFromMessage text found.name d)).isValid = true →
      handleChatbotMessage env text =
        [Effect.modelCall "intent",
         Effect.modelCall (purposeOf (detectedIntentOf env.intentResponse))] ++
        (if aiResp != "" then [Effect.reply aiResp] else []) ++
        [Effect.runWebhook found.name
          (extractParametersFromMessage text found.name d)] ++
        [Effect.reply (webhookOutcomeReply w
          (extractParametersFromMessage text found.name d)
          (handleWebhook env.webhookOutcome env.registry found.name
            (extractParametersFromMessage text found.name d)))]) := by
  constructor
  · intro env text r aiResp c a h htext hintent hfr hres henabled hc hcmd
    have hcb : (c != "") = true := by simp [hc]
    rw [handleChatbotMessage, if_neg htext]
    simp only [if_neg hintent, hfr, hres, henabled, hcb, hcmd, if_pos rfl]
    simp
  · intro env text r aiResp w d found htext hintent hfr hres henabled hw hfind
      hvalid
    have hwb : (w != "") = true := by simp [hw]
    have hnf : ¬((validateParameters found.name
        (extractParametersFromMessage text found.name d)).isValid = false) := by
      rw [hvalid]; decide
    rw [handleChatbotMessage, if_neg htext]
    simp only [if_neg hintent, hfr, hres, henabled, hwb, hfind, if_neg hnf,
      if_pos rfl]
    simp

/-- A concrete environment for the C8 witness: a valid `area_control` call
with explanatory text, and a registered local command. -/
def envC8 : ChatbotEnv :=
  { enabled := true,
    intentResponse := some ⟨"", some (.intentResult "WEBHOOK" none none)⟩,
    chatResponse := none,
    functionResponse := some ⟨"Apagando la luz de la oficina.",
      some (.hook "area_control"
        [("area", some "office"), ("turn", some "off")])⟩,
    commands := [("!clima", 7)],
    commandOutcome := fun _ _ => .ok (),
    registry := register (fun _ => none) RegistryState.empty "area_control" 1
      "Control de areas" none,
    webhookOutcome := fun _ _ => .ok "done" }

/-- The same environment with the model choosing the local command path. -/
def envC8cmd : ChatbotEnv :=
  { enabled := true,
    intentResponse := some ⟨"", some (.intentResult "COMMAND" none none)⟩,
    chatResponse := none,
    functionResponse := some ⟨"Consultando el clima.",
      some (.cmd "!clima" "Buenos Aires")⟩,
    commands := [("!clima", 7)],
    commandOutcome := fun _ _ => .ok (),
    registry := register (fun _ => none) RegistryState.empty "area_control" 1
      "Control de areas" none,
    webhookOutcome := fun _ _ => .ok "done" }

/-- Witness for C8: the explanatory reply comes strictly before the
dispatch effect and the outcome reply, on both paths. -/
theorem c8_witness :
    handleChatbotMessage envC8cmd "clima en Buenos Aires" =
      [.modelCall "intent", .modelCall "command",
       .reply "Consultando el clima.", .runCommand "!clima" "Buenos Aires"] ∧
    handleChatbotMessage envC8 "turn off the office lights" =
      [.modelCall "intent", .modelCall "webhook",
       .reply "Apagando la luz de la oficina.",
       .runWebhook "area_control"
         [("area", some "office"), ("turn", some "off")],
       .reply "✅ He apagado las luces del office"] := by
  constructor
  · have h := c8_two_message_order.1 envC8cmd "clima en Buenos Aires"
      ⟨"Consultando el clima.", some (.cmd "!clima" "Buenos Aires")⟩
      "Consultando el clima." "!clima" "Buenos Aires" 7 (by decide)
      (by decide) rfl rfl rfl (by decide) (by decide)
    rw [h]; decide
  · have h := c8_two_message_order.2 envC8 "turn off the office lights"
      ⟨"Apagando la luz de la oficina.",
        some (.hook "area_control"
          [("area", some "office"), ("turn", some "off")])⟩
      "Apagando la luz de la oficina." "area_control"
      [("area", some "office"), ("turn", some "off")]
      ⟨"area_control", some ⟨1, "Control de areas", "area_control"⟩⟩
      (by decide) (by decide) rfl rfl rfl (by decide) (by decide) (by decide)
    rw [h]; decide

/-! ### C9: the disabled auto-dispatch flag -/

/-- A concrete environment for C9: function calls disabled, and the model
produces a webhook call with explanatory text. -/
def envC9 : ChatbotEnv :=
  { enabled := false,
    intentResponse := some ⟨"", some (.intentResult "WEBHOOK" none none)⟩,
    chatResponse := none,
    functionResponse := some ⟨"Voy a apagar la luz.",
      some (.hook "area_control"
        [("area", some "office"), ("turn", some "off")])⟩,
    commands := [],
    commandOutcome := fun _ _ => .ok (),
    registry := register (fun _ => none) RegistryState.empty "area_control" 1
      "Control de areas" none,
    webhookOutcome := fun _ _ => .ok "done" }

/-- C9 (code bug): with auto-dispatch disabled and a function call parsed,
the source intends to reply with the model text plus a note that automatic
execution is disabled and then return — but `responseToUser` is a `const`
binding, so the `+=` appending the note throws a TypeError caught by the
outer handler, and the user receives the generic apology instead. No
command or webhook is dispatched (that half of the claim holds); the
note-carrying reply is never sent. The trace at a concrete input exhibits
exactly the apology and no dispatch. -/
theorem c9_disabled_flag_const_reassignment_bug :
    handleChatbotMessage envC9 "apaga la luz de la oficina" =
      [.modelCall "intent", .modelCall "webhook", .reply genericApology] ∧
    (∀ e ∈ handleChatbotMessage envC9 "apaga la luz de la oficina",
      isDispatch e = false) ∧
    (∀ m ∈ repliesOf (handleChatbotMessage envC9 "apaga la luz de la oficina"),
      m ≠ "Voy a apagar la luz." ++
        "\n\n_La ejecución automática de accións está desactivada. " ++
        "Usa !settings funciones on para activarla._") := by
  refine ⟨by decide, by decide, by decide⟩

end WABot
